import Mathlib

/-!
# Verification of the Renegade typescript-external-match-client

A shallow embedding, in Lean 4, of the request-authentication subsystem and
the matching-client orchestration of the `typescript-external-match-client`
repository, together with theorems settling the specification claims.

Bytes are modelled as `Nat` values below 256; 32-bit machine arithmetic is
`Nat` arithmetic reduced modulo `2 ^ 32` where overflow matters.  Strings are
Lean `String`s (sequences of unicode scalar values, matching the text content
of JS strings); `TextEncoder` is the standard UTF-8 encoding.
-/

namespace RenegadeClient

/-! ## Byte-level primitives: UTF-8, base64 -/

/-- UTF-8 encoding of a single unicode scalar value (`TextEncoder` semantics). -/
def utf8Char (c : Char) : List Nat :=
  let n := c.toNat
  if n < 128 then [n]
  else if n < 2048 then [192 + n / 64, 128 + n % 64]
  else if n < 65536 then [224 + n / 4096, 128 + (n / 64) % 64, 128 + n % 64]
  else [240 + n / 262144, 128 + (n / 4096) % 64, 128 + (n / 64) % 64, 128 + n % 64]

/-- UTF-8 encoding of a string (`new TextEncoder().encode(s)`). -/
def utf8 (s : String) : List Nat :=
  (s.data.map utf8Char).flatten

/-- The standard base64 alphabet. -/
def base64Alphabet : List Char :=
  "ABCDEFGHIJKLMNOPQRSTUVWXYZabcdefghijklmnopqrstuvwxyz0123456789+/".data

/-- Character of a 6-bit group. -/
def b64Char (n : Nat) : Char := base64Alphabet.getD n 'A'

/-- Base64 encoding with `=` padding (`Buffer.toString('base64')`). -/
def base64Encode : List Nat → List Char
  | [] => []
  | [a] => [b64Char (a / 4), b64Char (a % 4 * 16), '=', '=']
  | [a, b] => [b64Char (a / 4), b64Char (a % 4 * 16 + b / 16), b64Char (b % 16 * 4), '=']
  | a :: b :: c :: rest =>
    b64Char (a / 4) :: b64Char (a % 4 * 16 + b / 16) :: b64Char (b % 16 * 4 + c / 64) ::
      b64Char (c % 64) :: base64Encode rest

/-- Strip every trailing `'='` character (the `.replace` of trailing `=` runs
with the empty string in `encodeBase64`). -/
def stripTrailingEq (l : List Char) : List Char :=
  (l.reverse.dropWhile (fun c => c = '=')).reverse

/-- Value of a base64 alphabet character (six bits). -/
def b64Val (c : Char) : Nat :=
  base64Alphabet.indexOf c

/-- Regroup a list of 6-bit values into bytes, dropping incomplete trailing
bits (Node `Buffer.from(_, 'base64')` semantics on the filtered input). -/
def base64DecodeCore : List Nat → List Nat
  | a :: b :: c :: d :: rest =>
    (a * 4 + b / 16) :: (b % 16 * 16 + c / 4) :: (c % 4 * 64 + d) :: base64DecodeCore rest
  | [a, b] => [a * 4 + b / 16]
  | [a, b, c] => [a * 4 + b / 16, b % 16 * 16 + c / 4]
  | _ => []

/-- Base64 decoding (`Buffer.from(s, 'base64')`): non-alphabet characters,
including `'='`, are ignored; complete 6-bit groups become bytes. -/
def base64Decode (s : String) : List Nat :=
  base64DecodeCore ((s.data.filter (fun c => base64Alphabet.contains c)).map b64Val)

/-! ## SHA-256 (FIPS 180-4) over byte lists, `Nat` arithmetic mod `2 ^ 32` -/

/-- Reduce to a 32-bit word. -/
def w32 (n : Nat) : Nat := n % 4294967296

/-- Right rotation of a 32-bit word. -/
def rotr32 (x n : Nat) : Nat := w32 (x / 2 ^ n + x % 2 ^ n * 2 ^ (32 - n))

/-- Bitwise complement of a 32-bit word. -/
def not32 (x : Nat) : Nat := x ^^^ 4294967295

/-- Source `Ch(x, y, z)`. -/
def ch (x y z : Nat) : Nat := (x &&& y) ^^^ (not32 x &&& z)

/-- Source `Maj(x, y, z)`. -/
def maj (x y z : Nat) : Nat := (x &&& y) ^^^ (x &&& z) ^^^ (y &&& z)

/-- Source `Σ₀`. -/
def bsig0 (x : Nat) : Nat := rotr32 x 2 ^^^ rotr32 x 13 ^^^ rotr32 x 22

/-- Source `Σ₁`. -/
def bsig1 (x : Nat) : Nat := rotr32 x 6 ^^^ rotr32 x 11 ^^^ rotr32 x 25

/-- Source `σ₀`. -/
def ssig0 (x : Nat) : Nat := rotr32 x 7 ^^^ rotr32 x 18 ^^^ x / 8

/-- Source `σ₁`. -/
def ssig1 (x : Nat) : Nat := rotr32 x 17 ^^^ rotr32 x 19 ^^^ x / 1024

/-- The SHA-256 initial hash value. -/
def sha256IV : List Nat :=
  [1779033703, 3144134277, 1013904242, 2773480762,
   1359893119, 2600822924, 528734635, 1541459225]

/-- The 64 SHA-256 round constants. -/
def sha256K : List Nat :=
  [1116352408, 1899447441, 3049323471, 3921009573,
   961987163, 1508970993, 2453635748, 2870763221,
   3624381080, 310598401, 607225278, 1426881987,
   1925078388, 2162078206, 2614888103, 3248222580,
   3835390401, 4022224774, 264347078, 604807628,
   770255983, 1249150122, 1555081692, 1996064986,
   2554220882, 2821834349, 2952996808, 3210313671,
   3336571891, 3584528711, 113926993, 338241895,
   666307205, 773529912, 1294757372, 1396182291,
   1695183700, 1986661051, 2177026350, 2456956037,
   2730485921, 2820302411, 3259730800, 3345764771,
   3516065817, 3600352804, 4094571909, 275423344,
   430227734, 506948616, 659060556, 883997877,
   958139571, 1322822218, 1537002063, 1747873779,
   1955562222, 2024104815, 2227730452, 2361852424,
   2428436474, 2756734187, 3204031479, 3329325298]

/-- Big-endian bytes of a 64-bit length field. -/
def u64be (n : Nat) : List Nat :=
  [n / 2 ^ 56 % 256, n / 2 ^ 48 % 256, n / 2 ^ 40 % 256, n / 2 ^ 32 % 256,
   n / 2 ^ 24 % 256, n / 2 ^ 16 % 256, n / 2 ^ 8 % 256, n % 256]

/-- SHA-256 padding: `0x80`, zeros to 56 mod 64, 64-bit big-endian bit length. -/
def sha256Pad (msg : List Nat) : List Nat :=
  msg ++ 128 :: List.replicate ((119 - msg.length % 64) % 64) 0 ++ u64be (msg.length * 8)

/-- Big-endian 4-byte groups to 32-bit words. -/
def bytesToWords : List Nat → List Nat
  | a :: b :: c :: d :: rest => (a * 16777216 + b * 65536 + c * 256 + d) :: bytesToWords rest
  | _ => []

/-- One message-schedule extension step: append word `W_t` for the next `t`. -/
def schedStep (w : List Nat) : List Nat :=
  w ++ [w32 (ssig1 (w.getD (w.length - 2) 0) + w.getD (w.length - 7) 0 +
        ssig0 (w.getD (w.length - 15) 0) + w.getD (w.length - 16) 0)]

/-- The full 64-entry message schedule of a block's 16 words. -/
def schedule (w16 : List Nat) : List Nat :=
  (List.range 48).foldl (fun w _ => schedStep w) w16

/-- One compression round on the state `[a, b, c, d, e, f, g, h]`. -/
def compressRound (st : List Nat) (kt wt : Nat) : List Nat :=
  match st with
  | [a, b, c, d, e, f, g, h] =>
    let t1 := w32 (h + bsig1 e + ch e f g + kt + wt)
    let t2 := w32 (bsig0 a + maj a b c)
    [w32 (t1 + t2), a, b, c, w32 (d + t1), e, f, g]
  | st => st

/-- Compress one 64-byte block into the running state. -/
def compressBlock (st block : List Nat) : List Nat :=
  let w := schedule (bytesToWords block)
  let st' := (sha256K.zip w).foldl (fun s p => compressRound s p.1 p.2) st
  List.zipWith (fun x y => w32 (x + y)) st st'

/-- Split a byte list into 64-byte chunks. -/
def chunks64 : List Nat → List (List Nat)
  | [] => []
  | x :: xs => ((x :: xs).take 64) :: chunks64 ((x :: xs).drop 64)
termination_by l => l.length
decreasing_by simp [List.length_drop]; omega

/-- Big-endian serialization of the eight-word state. -/
def wordsToBytes (ws : List Nat) : List Nat :=
  (ws.map (fun x => [x / 16777216 % 256, x / 65536 % 256, x / 256 % 256, x % 256])).flatten

/-- SHA-256 of a byte list. -/
def sha256 (msg : List Nat) : List Nat :=
  wordsToBytes ((chunks64 (sha256Pad msg)).foldl compressBlock sha256IV)

/-- HMAC-SHA256 (FIPS 198-1), the function computed by
`hmac.create(sha256, key)` from `@noble/hashes`. -/
def hmacSha256 (key msg : List Nat) : List Nat :=
  let k0 := if 64 < key.length then sha256 key else key
  let k1 := k0 ++ List.replicate (64 - k0.length) 0
  sha256 ((k1.map (fun b => b ^^^ 92)) ++ sha256 ((k1.map (fun b => b ^^^ 54)) ++ msg))

/-! ## JS values and the BigInt-safe JSON codec

The repository configures `json-bigint` with `alwaysParseAsBig: true` and
`useNativeBigInt: true` (`src/http.ts`).  The codec below embeds that
library's behavior (its Crockford-style recursive-descent parse and its
`JSON.stringify`-compatible stringify, with `bigint` values emitted as bare
decimal literals).

A JS runtime value is modelled by `JsValue`; `undef` is the JS `undefined`
(relevant because `JSON.stringify` omits object fields whose value is
`undefined`).  Numbers: under this configuration every numeric literal is
converted with `BigInt`, which throws on non-integral values; a thrown
`RangeError` and a syntax error are observationally identical at the
`parseBigJSON` boundary (both take the `catch` branch), so the parser below
returns `none` in either case.  IEEE-double rounding of sub-16-character
exponent-notation literals above `2 ^ 53` is not modelled (floating point).
-/

/-- A JS runtime value as passed to / produced by the JSON codec. -/
inductive JsValue where
  | undef
  | null
  | bool (b : Bool)
  | num (i : Int)
  | str (s : String)
  | arr (items : List JsValue)
  | obj (fields : List (String × JsValue))
deriving BEq, Repr

/-- Decimal digit characters of a natural number (no leading zeros;
`"0"` for zero) — the digits of `BigInt.prototype.toString`. -/
def natDigits (n : Nat) : List Char :=
  if h : n < 10 then [Char.ofNat (48 + n)]
  else natDigits (n / 10) ++ [Char.ofNat (48 + n % 10)]
termination_by n
decreasing_by exact Nat.div_lt_self (by omega) (by omega)

/-- Decimal representation of an integer (`BigInt.prototype.toString`). -/
def intChars (i : Int) : List Char :=
  if i < 0 then '-' :: natDigits i.natAbs else natDigits i.toNat

/-- Four lowercase hex digits. -/
def hex4 (n : Nat) : List Char :=
  let d := fun k => if k < 10 then Char.ofNat (48 + k) else Char.ofNat (87 + k)
  [d (n / 4096 % 16), d (n / 256 % 16), d (n / 16 % 16), d (n % 16)]

/-- Model of `JSON.stringify` string quoting: escape quote, backslash and control
characters. -/
def quoteChar (c : Char) : List Char :=
  if c = '"' then ['\\', '"']
  else if c = '\\' then ['\\', '\\']
  else if c = '\x08' then ['\\', 'b']
  else if c = '\x09' then ['\\', 't']
  else if c = '\x0a' then ['\\', 'n']
  else if c = '\x0c' then ['\\', 'f']
  else if c = '\x0d' then ['\\', 'r']
  else if c.toNat < 32 then '\\' :: 'u' :: hex4 c.toNat
  else [c]

/-- A quoted JSON string literal. -/
def quoteStr (s : String) : List Char :=
  '"' :: (s.data.map quoteChar).flatten ++ ['"']

mutual

/-- Model of `jsonProcessor.stringify` (compact, no indent): `none` is the JS
`undefined` result (only for `undefined` input). -/
def jsStringify : JsValue → Option (List Char)
  | .undef => none
  | .null => some "null".data
  | .bool true => some "true".data
  | .bool false => some "false".data
  | .num i => some (intChars i)
  | .str s => some (quoteStr s)
  | .arr items => some ('[' :: jsStringifyItems items ++ [']'])
  | .obj fields =>
    some ('\x7b' :: jsStringifyFields fields ++ ['\x7d'])

/-- Array elements, comma-separated; `undefined` elements print as `null`. -/
def jsStringifyItems : List JsValue → List Char
  | [] => []
  | [v] => (jsStringify v).getD "null".data
  | v :: rest => ((jsStringify v).getD "null".data) ++ ',' :: jsStringifyItems rest

/-- Object fields, comma-separated; fields whose value stringifies to
`undefined` are omitted. -/
def jsStringifyFields : List (String × JsValue) → List Char
  | [] => []
  | (k, v) :: rest =>
    match jsStringify v with
    | none => jsStringifyFields rest
    | some cs =>
      let entry := quoteStr k ++ ':' :: cs
      let tail := jsStringifyFields rest
      if tail.isEmpty then entry else entry ++ ',' :: tail

end

/-- The exported `stringifyBigJSON` of `src/http.ts`, as a string. -/
def stringifyBigJSON (v : JsValue) : Option String :=
  (jsStringify v).map String.mk

/-! ### The parse side -/

/-- Crockford-parser whitespace skip: every character with code at most 32. -/
def skipWs (l : List Char) : List Char :=
  l.dropWhile (fun c => c.toNat ≤ 32)

/-- Value of a hex digit. -/
def hexVal (c : Char) : Option Nat :=
  if c.isDigit then some (c.toNat - 48)
  else if 'a' ≤ c ∧ c ≤ 'f' then some (c.toNat - 87)
  else if 'A' ≤ c ∧ c ≤ 'F' then some (c.toNat - 55)
  else none

/-- The escape character named by an escape code (`\"`, `\\`, `\/`, `\b`,
`\f`, `\n`, `\r`, `\t`); `none` for an unknown code. -/
def escapeChar (c : Char) : Option Char :=
  if c = '"' then some '"'
  else if c = '\\' then some '\\'
  else if c = '/' then some '/'
  else if c = 'b' then some '\x08'
  else if c = 'f' then some '\x0c'
  else if c = 'n' then some '\x0a'
  else if c = 'r' then some '\x0d'
  else if c = 't' then some '\x09'
  else none

/-- String-literal body: input starts after the opening quote; returns the
content and the remainder after the closing quote. -/
def parseStrChars : List Char → Option (List Char × List Char)
  | [] => none
  | c :: rest =>
    if c = '"' then some ([], rest)
    else if c = '\\' then
      match rest with
      | [] => none
      | e :: r =>
        if e = 'u' then
          match r with
          | h1 :: h2 :: h3 :: h4 :: r' =>
            match hexVal h1, hexVal h2, hexVal h3, hexVal h4 with
            | some a, some b, some c, some d =>
              (parseStrChars r').map
                (fun p => (Char.ofNat (a * 4096 + b * 256 + c * 16 + d) :: p.1, p.2))
            | _, _, _, _ => none
          | _ => none
        else
          match escapeChar e with
          | some ec => (parseStrChars r).map (fun p => (ec :: p.1, p.2))
          | none => none
    else (parseStrChars rest).map (fun p => (c :: p.1, p.2))
termination_by l => l.length
decreasing_by all_goals simp_all <;> omega

/-- Numeric value of a digit run (`BigInt` / `+` conversion of digits). -/
def digitsVal (ds : List Char) : Nat :=
  ds.foldl (fun a c => a * 10 + (c.toNat - 48)) 0

/-- The number production of the `json-bigint` parser under
`alwaysParseAsBig` + `useNativeBigInt`: scan `-`, digits, fraction and
exponent; literals of more than 15 characters go through `BigInt(string)`
(exact on plain integer literals, a throw otherwise), shorter ones through
`BigInt(+string)` (a throw on non-integral values).  `none` covers both the
syntax-error and the `BigInt`-throw outcomes. -/
def parseNum (input : List Char) : Option (JsValue × List Char) :=
  let neg : Prop := input.head? = some '-'
  let r0 := if input.head? = some '-' then input.tail else input
  let ip := r0.takeWhile Char.isDigit
  let r1 := r0.dropWhile Char.isDigit
  let hasDot : Prop := r1.head? = some '.'
  let fp := if r1.head? = some '.' then r1.tail.takeWhile Char.isDigit else []
  let r2 := if r1.head? = some '.' then r1.tail.dropWhile Char.isDigit else r1
  let hasExp : Prop := r2.head? = some 'e' ∨ r2.head? = some 'E'
  let hasExpSign : Prop := hasExp ∧ (r2.tail.head? = some '+' ∨ r2.tail.head? = some '-')
  let expNeg : Prop := hasExp ∧ r2.tail.head? = some '-'
  let r3 := if hasExp then (if hasExpSign then r2.tail.tail else r2.tail) else r2
  let ep := if hasExp then r3.takeWhile Char.isDigit else []
  let r4 := if hasExp then r3.dropWhile Char.isDigit else r3
  if ip.isEmpty ∧ fp.isEmpty then none
  else if hasExp ∧ ep.isEmpty then none
  else
    let litLen := (if neg then 1 else 0) + ip.length + (if hasDot then 1 + fp.length else 0)
      + (if hasExp then 1 + (if hasExpSign then 1 else 0) + ep.length else 0)
    if 15 < litLen then
      -- `BigInt(string)`: accepts only an optionally-signed digit string
      if hasDot ∨ hasExp then none
      else some (.num (if neg then -(digitsVal ip : Int) else (digitsVal ip : Int)), r4)
    else
      -- `BigInt(+string)`: the value must be integral
      let digitsAll := digitsVal (ip ++ fp)
      let exp10 : Int := (if expNeg then -(digitsVal ep : Int) else (digitsVal ep : Int))
        - (fp.length : Int)
      let signed : Int → JsValue := fun n => .num (if neg then -n else n)
      if digitsAll = 0 then some (signed 0, r4)
      else if 0 ≤ exp10 then some (signed (digitsAll * 10 ^ exp10.toNat), r4)
      else if digitsAll % 10 ^ (-exp10).toNat = 0 then
        some (signed (digitsAll / 10 ^ (-exp10).toNat), r4)
      else none

/-- JS object-property assignment `o[k] = v`: replace in place, else append. -/
def objSet (fields : List (String × JsValue)) (k : String) (v : JsValue) :
    List (String × JsValue) :=
  if fields.any (fun p => p.1 = k) then
    fields.map (fun p => if p.1 = k then (k, v) else p)
  else fields ++ [(k, v)]

mutual

/-- The value production of the `json-bigint` parser (fuel-indexed; the fuel
strictly decreases along every recursive call and one unit of fuel always
consumes at least one character, so `length + 1` fuel is always enough). -/
def parseVal : Nat → List Char → Option (JsValue × List Char)
  | 0, _ => none
  | f + 1, input =>
    match skipWs input with
    | [] => none
    | c :: rest =>
      if c = '\x7b' then parseObjLoop f [] (skipWs rest) true
      else if c = '[' then parseArrLoop f [] (skipWs rest) true
      else if c = '"' then (parseStrChars rest).map (fun p => (.str (String.mk p.1), p.2))
      else if c = 't' then
        match rest with
        | 'r' :: 'u' :: 'e' :: r => some (.bool true, r)
        | _ => none
      else if c = 'f' then
        match rest with
        | 'a' :: 'l' :: 's' :: 'e' :: r => some (.bool false, r)
        | _ => none
      else if c = 'n' then
        match rest with
        | 'u' :: 'l' :: 'l' :: r => some (.null, r)
        | _ => none
      else if c = '-' ∨ c.isDigit then parseNum (c :: rest)
      else none

/-- The object production after the opening brace (whitespace skipped);
`first` is true before any member has been read. -/
def parseObjLoop : Nat → List (String × JsValue) → List Char → Bool →
    Option (JsValue × List Char)
  | 0, _, _, _ => none
  | f + 1, acc, input, first =>
    match input with
    | [] => none
    | c :: rest =>
      if first ∧ c = '\x7d' then some (.obj acc, rest)
      else if c = '"' then
        match parseStrChars rest with
        | none => none
        | some (key, r1) =>
          match skipWs r1 with
          | ':' :: r2 =>
            match parseVal f r2 with
            | none => none
            | some (v, r3) =>
              match skipWs r3 with
              | '\x7d' :: r4 => some (.obj (objSet acc (String.mk key) v), r4)
              | ',' :: r4 => parseObjLoop f (objSet acc (String.mk key) v) (skipWs r4) false
              | _ => none
          | _ => none
      else none

/-- The array production after the opening bracket (whitespace skipped). -/
def parseArrLoop : Nat → List JsValue → List Char → Bool →
    Option (JsValue × List Char)
  | 0, _, _, _ => none
  | f + 1, acc, input, first =>
    if first ∧ input.head? = some ']' then some (.arr acc, input.tail)
    else
      match parseVal f input with
      | none => none
      | some (v, r1) =>
        match skipWs r1 with
        | ']' :: r2 => some (.arr (acc ++ [v]), r2)
        | ',' :: r2 => parseArrLoop f (acc ++ [v]) (skipWs r2) false
        | _ => none

end

/-- Model of `jsonProcessor.parse`: parse a complete value, allowing trailing
whitespace only. -/
def jsonParse (s : String) : Option JsValue :=
  match parseVal (s.data.length + 1) s.data with
  | some (v, rest) => if (skipWs rest).isEmpty then some v else none
  | none => none

/-- Outcome of `parseBigJSON`: either the parsed value, or — after a caught
parse exception and a `console.error` diagnostic — the original string. -/
inductive ParsedOrRaw where
  | parsed (v : JsValue)
  | raw (s : String)
deriving BEq, Repr

/-- The exported `parseBigJSON` of `src/http.ts`: total — a parse failure is
caught, logged, and mapped to the unchanged input. -/
def parseBigJSON (s : String) : ParsedOrRaw :=
  match jsonParse s with
  | some v => .parsed v
  | none => .raw s

/-! ## The authenticated transport (`RelayerHttpClient`, `src/http.ts`)

Header maps are association lists in insertion order, the entry sequence
`Object.entries` yields for a JS object built from a `Record<string, string>`
(so callers supply pairwise-distinct names); assignment
`headers[k] = v` replaces the value in place when the exact key exists and
appends otherwise. -/

/-- A JS decimal rendering of a natural (`Number.prototype.toString` for
integers in the safe range, `BigInt.prototype.toString` in general). -/
def natToString (n : Nat) : String := String.mk (natDigits n)

/-- Source `RENEGADE_HEADER_PREFIX` of `src/http.ts`: the reserved header namespace
(renamed here: the Lean token rules reject the source's spelling). -/
def renegadeHeaderNs : String := "x-renegade"

/-- Source `RENEGADE_AUTH_HEADER`. -/
def RENEGADE_AUTH_HEADER : String := "x-renegade-auth"

/-- Source `RENEGADE_AUTH_EXPIRATION_HEADER`. -/
def RENEGADE_AUTH_EXPIRATION_HEADER : String := "x-renegade-auth-expiration"

/-- Source `REQUEST_SIGNATURE_DURATION_MS`: ten seconds in milliseconds. -/
def REQUEST_SIGNATURE_DURATION_MS : Nat := 10 * 1000

/-- A header map. -/
abbrev Headers := List (String × String)

/-- JS object-property assignment for string records. -/
def setHeader (hs : Headers) (k v : String) : Headers :=
  if hs.any (fun p => p.1 = k) then hs.map (fun p => if p.1 = k then (k, v) else p)
  else hs ++ [(k, v)]

/-- Lexicographic (code-point) three-way string comparison: the value of
`a.localeCompare(b)` on the ASCII header names at issue (the spec reads the
comparison as plain lexicographic order). -/
def lexCompare : List Char → List Char → Int
  | [], [] => 0
  | [], _ :: _ => -1
  | _ :: _, [] => 1
  | a :: as, b :: bs =>
    if a.toNat < b.toNat then -1 else if b.toNat < a.toNat then 1 else lexCompare as bs

/-- Model of `a.localeCompare(b)` (as code-point lexicographic comparison). -/
def localeCompare (a b : String) : Int := lexCompare a.data b.data

/-- Model of `Array.prototype.sort` with the comparator
`([a], [b]) => a.localeCompare(b)`: a stable sort putting `a` before `b`
when the comparator is non-positive. -/
def sortHeaders (hs : Headers) : Headers :=
  hs.mergeSort (fun a b => localeCompare a.1 b.1 ≤ 0)

/-- JS `String.prototype.toLowerCase`, per unicode scalar (ASCII-correct for
the header names at issue).  Lean's own `String.toLower` is implemented by
well-founded recursion and does not reduce in the kernel, so the embedding
maps `Char.toLower` over the characters directly. -/
def toLowerStr (s : String) : String := String.mk (s.data.map Char.toLower)

/-- JS `String.prototype.startsWith` (again in a kernel-reducible form). -/
def strStartsWith (s pre : String) : Bool := pre.data.isPrefixOf s.data

/-- The two filters of `src/http.ts` lines 135–137: keep names that
lowercase to the reserved namespace, then drop the signature header
itself. -/
def renegadeEntries (hs : Headers) : Headers :=
  (hs.filter (fun kv => strStartsWith (toLowerStr kv.1) renegadeHeaderNs)).filter
    (fun kv => ! (toLowerStr kv.1 == RENEGADE_AUTH_HEADER))

/-- The header sub-list fed to the MAC (`src/http.ts` lines 135–138): the
reserved non-signature headers, sorted by name. -/
def signedHeaders (hs : Headers) : Headers :=
  sortHeaders (renegadeEntries hs)

/-- Request body as the transport holds it: a string, or a JS object value. -/
inductive ReqData where
  | jstr (s : String)
  | jobj (v : JsValue)
deriving BEq, Repr

/-- The body string the interceptor signs (`src/http.ts` lines 146–151):
empty when there is no (truthy) body, the string itself for string data, the
BigInt-safe stringification for object data.  (The unreachable `undefined`
stringification is the empty encoding `TextEncoder` would produce.) -/
def bodyStringToSign (data : Option ReqData) : String :=
  match data with
  | none => ""
  | some (.jstr s) => s
  | some (.jobj v) => (stringifyBigJSON v).getD ""

/-- A streaming HMAC context (`hmac.create(sha256, key)`): an incremental
`update` appends to the processed stream and `digest` is the HMAC of the
whole stream. -/
structure MacState where
  key : List Nat
  buf : List Nat

/-- Model of `hmac.create(sha256, key)`. -/
def macCreate (key : List Nat) : MacState := ⟨key, []⟩

/-- Model of `mac.update(bytes)`. -/
def macUpdate (st : MacState) (bytes : List Nat) : MacState := ⟨st.key, st.buf ++ bytes⟩

/-- Model of `mac.digest()`. -/
def macDigest (st : MacState) : List Nat := hmacSha256 st.key st.buf

/-- Source `encodeBase64` of `src/http.ts`: base64, then strip the trailing `=`
run. -/
def encodeBase64 (bytes : List Nat) : String :=
  String.mk (stripTrailingEq (base64Encode bytes))

/-- Source `decodeBase64` of `src/http.ts` (`Buffer.from(base64, 'base64')`). -/
def decodeBase64 (s : String) : List Nat := base64Decode s

/-- The signature computation of `addAuthInterceptor` (`src/http.ts` lines
126–155), taken at the header map that is in place after the expiration
header was set: stream the path bytes, each selected header's name and value
bytes in sorted order, and the body bytes into the keyed MAC; the signature
is the stripped base64 of the digest. -/
def computeSignature (authKey : List Nat) (url : String) (headers : Headers)
    (data : Option ReqData) : String :=
  let mac := macCreate authKey
  let mac := macUpdate mac (utf8 url)
  let mac := (signedHeaders headers).foldl
    (fun m kv => macUpdate (macUpdate m (utf8 kv.1)) (utf8 kv.2)) mac
  let mac := macUpdate mac (utf8 (bodyStringToSign data))
  encodeBase64 (macDigest mac)

/-- An axios request configuration as the interceptor sees it: the relative
url (path plus query string), the merged header map, and the body. -/
structure RequestConfig where
  url : String
  headers : Headers
  data : Option ReqData

/-- Source `addAuthInterceptor` (`src/http.ts` lines 115–158): set the expiration
header to now plus the signature window, compute the signature over the
resulting configuration, and set the signature header. -/
def addAuthInterceptor (authKey : List Nat) (now : Nat) (config : RequestConfig) :
    RequestConfig :=
  let expiry := now + REQUEST_SIGNATURE_DURATION_MS
  let headers1 := setHeader config.headers RENEGADE_AUTH_EXPIRATION_HEADER (natToString expiry)
  let sig := computeSignature authKey config.url headers1 config.data
  { config with headers := setHeader headers1 RENEGADE_AUTH_HEADER sig }

/-- The `transformRequest` of the axios instance (`src/http.ts` lines 60–66):
objects are stringified with the BigInt-safe codec, anything else passes
through (`none` = no body). -/
def transformRequestData (data : Option ReqData) : Option String :=
  match data with
  | none => none
  | some (.jstr s) => some s
  | some (.jobj v) => stringifyBigJSON v

/-- What goes on the wire for one request: final url, final headers, body. -/
structure SentRequest where
  url : String
  headers : Headers
  body : Option String

/-- One request through the client: axios runs the request interceptor and
then `transformRequest` on the data. -/
def sendRequest (authKey : List Nat) (now : Nat) (path : String) (headers : Headers)
    (data : Option ReqData) : SentRequest :=
  let config := addAuthInterceptor authKey now ⟨path, headers, data⟩
  ⟨config.url, config.headers, transformRequestData config.data⟩

/-- Source `RelayerHttpClient.get`: no body. -/
def relayerGet (authKey : List Nat) (now : Nat) (path : String) (headers : Headers) :
    SentRequest :=
  sendRequest authKey now path headers none

/-- Source `RelayerHttpClient.post`. -/
def relayerPost (authKey : List Nat) (now : Nat) (path : String) (data : ReqData)
    (headers : Headers) : SentRequest :=
  sendRequest authKey now path headers (some data)

/-! ## Domain types (`src/types.ts`)

Optional interface fields become `Option`; `bigint` fields are `Int`. -/

/-- Source `OrderSide`. -/
inductive OrderSide where
  | BUY
  | SELL
deriving BEq, Repr, DecidableEq

/-- Source `ApiExternalAssetTransfer`. -/
structure ApiExternalAssetTransfer where
  mint : String
  amount : Int
deriving BEq, Repr

/-- Source `ApiTimestampedPrice`. -/
structure ApiTimestampedPrice where
  price : String
  timestamp : Int
deriving BEq, Repr

/-- Source `ApiExternalMatchResult`. -/
structure ApiExternalMatchResult where
  quote_mint : String
  base_mint : String
  quote_amount : Int
  base_amount : Int
  direction : OrderSide
deriving BEq, Repr

/-- Source `FeeTake`. -/
structure FeeTake where
  relayer_fee : Int
  protocol_fee : Int
deriving BEq, Repr

/-- Source `ExternalOrder`. -/
structure ExternalOrder where
  quote_mint : String
  base_mint : String
  side : OrderSide
  base_amount : Option Int := none
  quote_amount : Option Int := none
  exact_base_output : Option Int := none
  exact_quote_output : Option Int := none
  min_fill_size : Option Int := none
deriving BEq, Repr

/-- Source `ApiExternalQuote`. -/
structure ApiExternalQuote where
  order : ExternalOrder
  match_result : ApiExternalMatchResult
  fees : FeeTake
  send : ApiExternalAssetTransfer
  receive : ApiExternalAssetTransfer
  price : ApiTimestampedPrice
  timestamp : Int
deriving BEq, Repr

/-- Source `ApiSignedExternalQuote`. -/
structure ApiSignedExternalQuote where
  quote : ApiExternalQuote
  signature : String
deriving BEq, Repr

/-- Source `GasSponsorshipInfo`. -/
structure GasSponsorshipInfo where
  refund_amount : Int
  refund_native_eth : Bool
  refund_address : Option String := none
deriving BEq, Repr

/-- Source `SignedGasSponsorshipInfo`. -/
structure SignedGasSponsorshipInfo where
  gas_sponsorship_info : GasSponsorshipInfo
  signature : String
deriving BEq, Repr

/-- Source `SignedExternalQuote`. -/
structure SignedExternalQuote where
  quote : ApiExternalQuote
  signature : String
  gas_sponsorship_info : Option SignedGasSponsorshipInfo := none
deriving BEq, Repr

/-- Source `SettlementTransaction` (`to` is a Lean keyword, hence the guillemets). -/
structure SettlementTransaction where
  tx_type : String
  «to» : String
  data : String
  value : String
deriving BEq, Repr

/-- Source `AtomicMatchApiBundle`. -/
structure AtomicMatchApiBundle where
  match_result : ApiExternalMatchResult
  fees : FeeTake
  receive : ApiExternalAssetTransfer
  send : ApiExternalAssetTransfer
  settlement_tx : SettlementTransaction
deriving BEq, Repr

/-- Source `ExternalQuoteResponse`. -/
structure ExternalQuoteResponse where
  signed_quote : ApiSignedExternalQuote
  gas_sponsorship_info : Option SignedGasSponsorshipInfo := none
deriving BEq, Repr

/-- Source `ExternalMatchResponse`. -/
structure ExternalMatchResponse where
  match_bundle : AtomicMatchApiBundle
  gas_sponsored : Bool
  gas_sponsorship_info : Option GasSponsorshipInfo := none
deriving BEq, Repr

/-! ### JS-value views of the request payloads (what `JSON.stringify`
iterates: the object literals of `src/client.ts`, keys in literal order) -/

/-- Optional field value: an absent optional field serializes like a field
holding `undefined`. -/
def optJs (f : α → JsValue) : Option α → JsValue
  | none => .undef
  | some a => f a

/-- Source `OrderSide` enum values are strings. -/
def orderSideJs : OrderSide → JsValue
  | .BUY => .str "Buy"
  | .SELL => .str "Sell"

/-- An `ExternalOrder` as a JS object (interface field order). -/
def externalOrderJs (o : ExternalOrder) : JsValue :=
  .obj [("quote_mint", .str o.quote_mint), ("base_mint", .str o.base_mint),
    ("side", orderSideJs o.side), ("base_amount", optJs JsValue.num o.base_amount),
    ("quote_amount", optJs JsValue.num o.quote_amount),
    ("exact_base_output", optJs JsValue.num o.exact_base_output),
    ("exact_quote_output", optJs JsValue.num o.exact_quote_output),
    ("min_fill_size", optJs JsValue.num o.min_fill_size)]

/-- An `ApiExternalQuote` as a JS object (interface field order). -/
def apiExternalQuoteJs (q : ApiExternalQuote) : JsValue :=
  .obj [("order", externalOrderJs q.order),
    ("match_result", .obj [("quote_mint", .str q.match_result.quote_mint),
      ("base_mint", .str q.match_result.base_mint),
      ("quote_amount", .num q.match_result.quote_amount),
      ("base_amount", .num q.match_result.base_amount),
      ("direction", orderSideJs q.match_result.direction)]),
    ("fees", .obj [("relayer_fee", .num q.fees.relayer_fee),
      ("protocol_fee", .num q.fees.protocol_fee)]),
    ("send", .obj [("mint", .str q.send.mint), ("amount", .num q.send.amount)]),
    ("receive", .obj [("mint", .str q.receive.mint), ("amount", .num q.receive.amount)]),
    ("price", .obj [("price", .str q.price.price), ("timestamp", .num q.price.timestamp)]),
    ("timestamp", .num q.timestamp)]

/-- The `signedQuote` literal of `assembleQuoteWithOptions` (`src/client.ts`
lines 331–334): only `quote` and `signature`. -/
def apiSignedQuoteJs (q : ApiSignedExternalQuote) : JsValue :=
  .obj [("quote", apiExternalQuoteJs q.quote), ("signature", .str q.signature)]

/-- The quote-request literal `{ external_order: order }`. -/
def quoteRequestJs (order : ExternalOrder) : JsValue :=
  .obj [("external_order", externalOrderJs order)]

/-! ## The match client (`src/client.ts`) -/

/-- Source `REQUEST_EXTERNAL_QUOTE_ROUTE`. -/
def REQUEST_EXTERNAL_QUOTE_ROUTE : String := "/v0/matching-engine/quote"

/-- Source `ASSEMBLE_EXTERNAL_MATCH_ROUTE`. -/
def ASSEMBLE_EXTERNAL_MATCH_ROUTE : String := "/v0/matching-engine/assemble-external-match"

/-- Source `DISABLE_GAS_SPONSORSHIP_QUERY_PARAM`. -/
def DISABLE_GAS_SPONSORSHIP_QUERY_PARAM : String := "disable_gas_sponsorship"

/-- Source `GAS_REFUND_ADDRESS_QUERY_PARAM`. -/
def GAS_REFUND_ADDRESS_QUERY_PARAM : String := "refund_address"

/-- Source `REFUND_NATIVE_ETH_QUERY_PARAM`. -/
def REFUND_NATIVE_ETH_QUERY_PARAM : String := "refund_native_eth"

/-- Model of `Boolean.prototype.toString`. -/
def boolToString (b : Bool) : String := if b then "true" else "false"

/-- A JS string is truthy when non-empty (`if (this.gasRefundAddress)`). -/
def truthyStr : Option String → Bool
  | none => false
  | some s => ¬ s.isEmpty

/-- Model of `URLSearchParams.set`: replace the first matching entry in place and
delete the others, else append. -/
def urlParamsSet : List (String × String) → String → String → List (String × String)
  | [], k, v => [(k, v)]
  | p :: rest, k, v =>
    if p.1 = k then (k, v) :: rest.filter (fun q => ¬ q.1 = k)
    else p :: urlParamsSet rest k v

/-- Characters `application/x-www-form-urlencoded` serialization keeps. -/
def formSafe (c : Char) : Bool :=
  c.isAlphanum ∨ c = '*' ∨ c = '-' ∨ c = '.' ∨ c = '_'

/-- An uppercase hex digit. -/
def hexDigitUp (n : Nat) : Char :=
  if n < 10 then Char.ofNat (48 + n) else Char.ofNat (55 + n)

/-- Form-urlencode one character: space to `+`, safe characters verbatim,
anything else percent-encoded per UTF-8 byte. -/
def formEncodeChar (c : Char) : List Char :=
  if c = ' ' then ['+']
  else if formSafe c then [c]
  else ((utf8Char c).map (fun b => ['%', hexDigitUp (b / 16), hexDigitUp (b % 16)])).flatten

/-- Form-urlencode a string. -/
def formEncode (s : String) : String :=
  String.mk ((s.data.map formEncodeChar).flatten)

/-- Model of `URLSearchParams.toString`. -/
def urlParamsToString (ps : List (String × String)) : String :=
  String.intercalate "&" (ps.map (fun p => formEncode p.1 ++ "=" ++ formEncode p.2))

/-- Source `RequestQuoteOptions` (`src/client.ts`), with its field defaults. -/
structure RequestQuoteOptions where
  disableGasSponsorship : Bool := false
  gasRefundAddress : Option String := none
  refundNativeEth : Bool := false
deriving BEq, Repr

/-- Source `RequestQuoteOptions.new()`. -/
def RequestQuoteOptions.new : RequestQuoteOptions := {}

/-- Source `RequestQuoteOptions.buildRequestPath` (`src/client.ts` lines 89–101):
always writes `disable_gas_sponsorship`, then the optional refund address and
the native-eth flag. -/
def RequestQuoteOptions.buildRequestPath (o : RequestQuoteOptions) : String :=
  let params := urlParamsSet [] DISABLE_GAS_SPONSORSHIP_QUERY_PARAM
    (boolToString o.disableGasSponsorship)
  let params := if truthyStr o.gasRefundAddress then
    urlParamsSet params GAS_REFUND_ADDRESS_QUERY_PARAM (o.gasRefundAddress.getD "")
    else params
  let params := if o.refundNativeEth then
    urlParamsSet params REFUND_NATIVE_ETH_QUERY_PARAM (boolToString o.refundNativeEth)
    else params
  REQUEST_EXTERNAL_QUOTE_ROUTE ++ "?" ++ urlParamsToString params

/-- Source `AssembleExternalMatchOptions` (`src/client.ts`), with its field
defaults. -/
structure AssembleExternalMatchOptions where
  doGasEstimation : Bool := false
  allowShared : Bool := false
  receiverAddress : Option String := none
  updatedOrder : Option ExternalOrder := none
  requestGasSponsorship : Bool := false
  gasRefundAddress : Option String := none
deriving BEq, Repr

/-- Source `AssembleExternalMatchOptions.new()`. -/
def AssembleExternalMatchOptions.new : AssembleExternalMatchOptions := {}

/-- Source `AssembleExternalMatchOptions.buildRequestPath` (`src/client.ts` lines
175–192): the bare route when no query parameter is needed; otherwise
`disable_gas_sponsorship` only when gas sponsorship was explicitly
requested, and the refund address when set. -/
def AssembleExternalMatchOptions.buildRequestPath (o : AssembleExternalMatchOptions) :
    String :=
  if ¬ o.requestGasSponsorship ∧ ¬ truthyStr o.gasRefundAddress then
    ASSEMBLE_EXTERNAL_MATCH_ROUTE
  else
    let params : List (String × String) := []
    let params := if o.requestGasSponsorship then
      urlParamsSet params DISABLE_GAS_SPONSORSHIP_QUERY_PARAM
        (boolToString (¬ o.requestGasSponsorship))
      else params
    let params := if truthyStr o.gasRefundAddress then
      urlParamsSet params GAS_REFUND_ADDRESS_QUERY_PARAM (o.gasRefundAddress.getD "")
      else params
    ASSEMBLE_EXTERNAL_MATCH_ROUTE ++ "?" ++ urlParamsToString params

/-- Source `ExternalMatchClientError`: message plus optional originating HTTP
status. -/
structure ExternalMatchClientError where
  message : String
  statusCode : Option Nat := none
deriving BEq, Repr

/-- The observable outcome of the one awaited HTTP round trip: a resolved
response (status and parsed, typed data — `none` for an empty or
unparseable-falsy body), or a rejection carrying an optional status and
message (`error.status` / `error.message`). -/
inductive HttpOutcome (α : Type) where
  | success (status : Nat) (data : Option α)
  | failure (status : Option Nat) (message : Option String)

/-- Model of `error.message || fallback`. -/
def messageOr (msg : Option String) (fallback : String) : String :=
  match msg with
  | none => fallback
  | some m => if m.isEmpty then fallback else m

/-- The request literal of `assembleQuoteWithOptions` (`src/client.ts` lines
336–342) — note it carries `allow_shared` although the
`AssembleExternalMatchRequest` interface of `src/types.ts` does not declare
that field. -/
structure AssembleRequestLiteral where
  do_gas_estimation : Bool
  allow_shared : Bool
  receiver_address : Option String
  signed_quote : ApiSignedExternalQuote
  updated_order : Option ExternalOrder
deriving BEq, Repr

/-- The request `assembleQuoteWithOptions` builds from a signed quote and
options: the quote is re-wrapped to `quote` + `signature` only. -/
def assembleRequestOf (quote : SignedExternalQuote)
    (options : AssembleExternalMatchOptions) : AssembleRequestLiteral :=
  { do_gas_estimation := options.doGasEstimation,
    allow_shared := options.allowShared,
    receiver_address := options.receiverAddress,
    signed_quote := { quote := quote.quote, signature := quote.signature },
    updated_order := options.updatedOrder }

/-- The assemble request as the JS object `JSON.stringify` walks (literal key
order). -/
def assembleRequestJs (r : AssembleRequestLiteral) : JsValue :=
  .obj [("do_gas_estimation", .bool r.do_gas_estimation),
    ("allow_shared", .bool r.allow_shared),
    ("receiver_address", optJs JsValue.str r.receiver_address),
    ("signed_quote", apiSignedQuoteJs r.signed_quote),
    ("updated_order", optJs externalOrderJs r.updated_order)]

/-- Top-level keys a JS object contributes to its serialization: fields whose
value is not `undefined`. -/
def serializedKeys (v : JsValue) : List String :=
  match v with
  | .obj fields => (fields.filter (fun p => (jsStringify p.2).isSome)).map (fun p => p.1)
  | _ => []

/-- Source `ExternalMatchClient.requestQuoteWithOptions` (`src/client.ts` lines
268–306), as a function of the HTTP outcome of its one `post`: 204 or an
empty body resolve to `null`; a rejection with status 204 resolves to
`null`; any other rejection throws `ExternalMatchClientError` with the
originating status. -/
def requestQuoteWithOptions (_order : ExternalOrder) (_options : RequestQuoteOptions)
    (outcome : HttpOutcome ExternalQuoteResponse) :
    Except ExternalMatchClientError (Option SignedExternalQuote) :=
  match outcome with
  | .success status data =>
    if status = 204 then .ok none
    else match data with
      | none => .ok none
      | some resp => .ok (some
          { quote := resp.signed_quote.quote,
            signature := resp.signed_quote.signature,
            gas_sponsorship_info := resp.gas_sponsorship_info })
  | .failure status message =>
    if status = some 204 then .ok none
    else .error { message := messageOr message "Failed to request quote",
                  statusCode := status }

/-- Source `ExternalMatchClient.requestQuote`: delegate under default options. -/
def requestQuote (order : ExternalOrder) (outcome : HttpOutcome ExternalQuoteResponse) :
    Except ExternalMatchClientError (Option SignedExternalQuote) :=
  requestQuoteWithOptions order RequestQuoteOptions.new outcome

/-- Source `ExternalMatchClient.assembleQuoteWithOptions` (`src/client.ts` lines
327–367), as a function of the HTTP outcome of its one `post`. -/
def assembleQuoteWithOptions (_quote : SignedExternalQuote)
    (_options : AssembleExternalMatchOptions) (outcome : HttpOutcome ExternalMatchResponse) :
    Except ExternalMatchClientError (Option ExternalMatchResponse) :=
  match outcome with
  | .success status data =>
    if status = 204 then .ok none
    else match data with
      | none => .ok none
      | some resp => .ok (some resp)
  | .failure status message =>
    if status = some 204 then .ok none
    else .error { message := messageOr message "Failed to assemble quote",
                  statusCode := status }

/-- Source `ExternalMatchClient.assembleQuote`: delegate under default options. -/
def assembleQuote (quote : SignedExternalQuote) (outcome : HttpOutcome ExternalMatchResponse) :
    Except ExternalMatchClientError (Option ExternalMatchResponse) :=
  assembleQuoteWithOptions quote AssembleExternalMatchOptions.new outcome

/-! ## Derived views used by the statements -/

/-- Exact-name header lookup (reading a JS object property). -/
def getHeader (hs : Headers) (k : String) : Option String :=
  (hs.find? (fun p => p.1 = k)).map (fun p => p.2)

/-- The flat byte sequence the interceptor's streamed MAC processes: path
bytes, then name/value bytes of each selected header in sorted order, then
body bytes. -/
def macMessage (url : String) (headers : Headers) (body : String) : List Nat :=
  utf8 url ++ ((signedHeaders headers).map (fun kv => utf8 kv.1 ++ utf8 kv.2)).flatten
    ++ utf8 body

/-- The signature as the specification claim words it: HMAC-SHA256, keyed
with the base64-decoded secret, over the concatenation of the UTF-8 path
bytes; then, for each header whose name case-insensitively starts with
`x-renegade`, excluding `x-renegade-auth`, in lexicographically sorted order
of name, the name bytes then the value bytes; then the body bytes; the raw
digest base64-encoded with the trailing `=` padding stripped. -/
def specSignature (secret : String) (path : String) (headers : Headers) (body : String) :
    String :=
  let selected := headers.filter
    (fun kv => strStartsWith (toLowerStr kv.1) renegadeHeaderNs
      && ! (toLowerStr kv.1 == RENEGADE_AUTH_HEADER))
  let sorted := selected.mergeSort (fun a b => localeCompare a.1 b.1 ≤ 0)
  let msg := utf8 path ++ (sorted.map (fun kv => utf8 kv.1 ++ utf8 kv.2)).flatten ++ utf8 body
  encodeBase64 (hmacSha256 (decodeBase64 secret) msg)

/-! ### Concrete inputs for witnesses and counterexamples -/

/-- A concrete order. -/
def exOrder : ExternalOrder :=
  { quote_mint := "0xA", base_mint := "0xB", side := .BUY, quote_amount := some 20000000 }

/-- A concrete quote. -/
def exApiQuote : ApiExternalQuote :=
  { order := exOrder,
    match_result := { quote_mint := "0xA", base_mint := "0xB", quote_amount := 20000000,
                      base_amount := 9007199254740993, direction := .BUY },
    fees := { relayer_fee := 2, protocol_fee := 3 },
    send := { mint := "0xA", amount := 20000000 },
    receive := { mint := "0xB", amount := 9007199254740993 },
    price := { price := "2.22", timestamp := 1700000000000 },
    timestamp := 1700000000000 }

/-- A concrete signed quote carrying gas-sponsorship metadata (so that the
stripping on assemble is observable). -/
def exSignedQuote : SignedExternalQuote :=
  { quote := exApiQuote, signature := "sig0",
    gas_sponsorship_info := some
      { gas_sponsorship_info := { refund_amount := 5, refund_native_eth := false },
        signature := "gassig" } }

/-! # Theorems on the specification claims -/

/-- C8: `AssembleExternalMatchOptions.buildRequestPath` returns the bare
assemble route under default options, and appends exactly
`disable_gas_sponsorship=false` when gas sponsorship is requested with no
refund address. -/
theorem assemble_buildRequestPath_cases :
    AssembleExternalMatchOptions.new.buildRequestPath =
      "/v0/matching-engine/assemble-external-match" ∧
    ({ requestGasSponsorship := true } : AssembleExternalMatchOptions).buildRequestPath =
      "/v0/matching-engine/assemble-external-match?disable_gas_sponsorship=false" :=
  ⟨rfl, rfl⟩

/-- C10: the no-options entry points delegate to the with-options entry
points under freshly-constructed default options, for every order, quote and
transport outcome. -/
theorem noOptions_entryPoints_delegate :
    ∀ (order : ExternalOrder) (q : SignedExternalQuote)
      (oq : HttpOutcome ExternalQuoteResponse) (oa : HttpOutcome ExternalMatchResponse),
      requestQuote order oq = requestQuoteWithOptions order RequestQuoteOptions.new oq ∧
      assembleQuote q oa = assembleQuoteWithOptions q AssembleExternalMatchOptions.new oa :=
  fun _ _ _ _ => ⟨rfl, rfl⟩

/-- C7: `parseBigJSON` is total; on an input the JSON grammar rejects it
returns the input string unchanged (the diagnostic-and-passthrough branch),
and otherwise it returns the parsed value. -/
theorem parseBigJSON_total_raw_on_failure :
    ∀ s : String, (jsonParse s = none → parseBigJSON s = .raw s) ∧
      (∀ v, jsonParse s = some v → parseBigJSON s = .parsed v) := by
  refine fun s => ⟨fun h => ?_, fun v h => ?_⟩ <;> simp [parseBigJSON, h]

/-- Witness for C7 at the concrete non-JSON input `"not json"`. -/
theorem parseBigJSON_raw_witness :
    jsonParse "not json" = none ∧ parseBigJSON "not json" = .raw "not json" :=
  ⟨rfl, (parseBigJSON_total_raw_on_failure "not json").1 rfl⟩

/-- C6: outcome mapping of the quote-request and assemble entry points: a
204 status or an empty body resolves to `null` (also when the 204 surfaces
as a rejection); a rejection with any other status throws
`ExternalMatchClientError` carrying the originating status and the error's
message (or the fixed fallback); and every outcome is either an `ok` or such
an error. -/
theorem quote_assemble_outcome_mapping :
    ∀ (order : ExternalOrder) (qopts : RequestQuoteOptions) (q : SignedExternalQuote)
      (aopts : AssembleExternalMatchOptions) (st : Nat) (d : Option ExternalQuoteResponse)
      (da : Option ExternalMatchResponse) (stf : Nat) (msg : Option String),
      (requestQuoteWithOptions order qopts (.success 204 d) = .ok none) ∧
      (requestQuoteWithOptions order qopts (.success st none) = .ok none) ∧
      (requestQuoteWithOptions order qopts (.failure (some 204) msg) = .ok none) ∧
      (¬ stf = 204 →
        requestQuoteWithOptions order qopts (.failure (some stf) msg) =
          .error ⟨messageOr msg "Failed to request quote", some stf⟩) ∧
      (∀ outcome, (∃ r, requestQuoteWithOptions order qopts outcome = .ok r) ∨
        ∃ stz msgz, outcome = .failure stz msgz ∧ ¬ stz = some 204 ∧
          requestQuoteWithOptions order qopts outcome =
            .error ⟨messageOr msgz "Failed to request quote", stz⟩) ∧
      (assembleQuoteWithOptions q aopts (.success 204 da) = .ok none) ∧
      (assembleQuoteWithOptions q aopts (.success st none) = .ok none) ∧
      (assembleQuoteWithOptions q aopts (.failure (some 204) msg) = .ok none) ∧
      (¬ stf = 204 →
        assembleQuoteWithOptions q aopts (.failure (some stf) msg) =
          .error ⟨messageOr msg "Failed to assemble quote", some stf⟩) ∧
      (∀ outcome, (∃ r, assembleQuoteWithOptions q aopts outcome = .ok r) ∨
        ∃ stz msgz, outcome = .failure stz msgz ∧ ¬ stz = some 204 ∧
          assembleQuoteWithOptions q aopts outcome =
            .error ⟨messageOr msgz "Failed to assemble quote", stz⟩) := by
  intro order qopts q aopts st d da stf msg
  refine ⟨?_, ?_, ?_, ?_, ?_, ?_, ?_, ?_, ?_, ?_⟩
  · simp [requestQuoteWithOptions]
  · by_cases h : st = 204 <;> simp [requestQuoteWithOptions, h]
  · simp [requestQuoteWithOptions]
  · intro h
    simp [requestQuoteWithOptions, h]
  · intro outcome
    match outcome with
    | .success s dd =>
      refine Or.inl ?_
      by_cases h : s = 204
      · exact ⟨none, by simp [requestQuoteWithOptions, h]⟩
      · match dd with
        | none => exact ⟨none, by simp [requestQuoteWithOptions, h]⟩
        | some resp =>
          exact ⟨some ⟨resp.signed_quote.quote, resp.signed_quote.signature,
            resp.gas_sponsorship_info⟩, by simp [requestQuoteWithOptions, h]⟩
    | .failure sz mz =>
      by_cases h : sz = some 204
      · exact Or.inl ⟨none, by simp [requestQuoteWithOptions, h]⟩
      · exact Or.inr ⟨sz, mz, rfl, h, by simp [requestQuoteWithOptions, h]⟩
  · simp [assembleQuoteWithOptions]
  · by_cases h : st = 204 <;> simp [assembleQuoteWithOptions, h]
  · simp [assembleQuoteWithOptions]
  · intro h
    simp [assembleQuoteWithOptions, h]
  · intro outcome
    match outcome with
    | .success s dd =>
      refine Or.inl ?_
      by_cases h : s = 204
      · exact ⟨none, by simp [assembleQuoteWithOptions, h]⟩
      · match dd with
        | none => exact ⟨none, by simp [assembleQuoteWithOptions, h]⟩
        | some resp => exact ⟨some resp, by simp [assembleQuoteWithOptions, h]⟩
    | .failure sz mz =>
      by_cases h : sz = some 204
      · exact Or.inl ⟨none, by simp [assembleQuoteWithOptions, h]⟩
      · exact Or.inr ⟨sz, mz, rfl, h, by simp [assembleQuoteWithOptions, h]⟩

/-- Witness for C6: a 500 rejection surfaces as the typed error with status
500 on both entry points, at concrete inputs. -/
theorem quote_assemble_outcome_witness :
    requestQuoteWithOptions exOrder RequestQuoteOptions.new (.failure (some 500) none) =
      .error ⟨"Failed to request quote", some 500⟩ ∧
    assembleQuoteWithOptions exSignedQuote AssembleExternalMatchOptions.new
        (.failure (some 500) none) =
      .error ⟨"Failed to assemble quote", some 500⟩ :=
  ⟨(quote_assemble_outcome_mapping exOrder .new exSignedQuote .new 0 none none 500
      none).2.2.2.1 (by decide),
   (quote_assemble_outcome_mapping exOrder .new exSignedQuote .new 0 none none 500
      none).2.2.2.2.2.2.2.2.1 (by decide)⟩

/-- Booleans always serialize. -/
theorem jsStringify_bool_isSome (b : Bool) : (jsStringify (.bool b)).isSome = true := by
  cases b <;> rfl

/-- Objects always serialize. -/
theorem jsStringify_obj_isSome (fs : List (String × JsValue)) :
    (jsStringify (.obj fs)).isSome = true := by
  simp [jsStringify]

/-- The `undefined` value does not serialize. -/
theorem jsStringify_undef : jsStringify .undef = none := rfl

/-- Strings always serialize. -/
theorem jsStringify_str_isSome (s : String) : (jsStringify (.str s)).isSome = true := rfl

/-- C9 counterexample: with default options, the serialized assemble body
contains the key `allow_shared`, which is not among the four fields the
claim allows. -/
theorem assembleBody_allowShared_counterexample :
    "allow_shared" ∈ serializedKeys (assembleRequestJs
        (assembleRequestOf exSignedQuote AssembleExternalMatchOptions.new)) ∧
    "allow_shared" ∉
      ["do_gas_estimation", "receiver_address", "signed_quote", "updated_order"] := by
  constructor
  · simp [serializedKeys, assembleRequestJs, assembleRequestOf, optJs,
      AssembleExternalMatchOptions.new, exSignedQuote, jsStringify]
  · decide

/-- C9 as amended: the serialized assemble body consists of exactly the
fields `do_gas_estimation`, `allow_shared`, `receiver_address` (when a
receiver is set), `signed_quote`, and `updated_order` (when an updated order
is set), in literal order; and `signed_quote` is the re-wrapped quote
holding exactly `quote` and `signature`, with any attached
`gas_sponsorship_info` stripped. -/
theorem assembleBody_fields (q : SignedExternalQuote) (o : AssembleExternalMatchOptions) :
    serializedKeys (assembleRequestJs (assembleRequestOf q o)) =
      ["do_gas_estimation", "allow_shared"]
        ++ (if o.receiverAddress.isSome then ["receiver_address"] else [])
        ++ ["signed_quote"]
        ++ (if o.updatedOrder.isSome then ["updated_order"] else []) ∧
    (assembleRequestOf q o).signed_quote = ⟨q.quote, q.signature⟩ ∧
    serializedKeys (apiSignedQuoteJs (assembleRequestOf q o).signed_quote) =
      ["quote", "signature"] := by
  refine ⟨?_, rfl, ?_⟩
  · cases hr : o.receiverAddress <;> cases hu : o.updatedOrder <;>
      simp [serializedKeys, assembleRequestJs, assembleRequestOf, optJs, hr, hu,
        jsStringify_bool_isSome, jsStringify_obj_isSome, jsStringify_undef,
        jsStringify_str_isSome, apiSignedQuoteJs, externalOrderJs, List.filter_cons]
  · simp [serializedKeys, apiSignedQuoteJs, jsStringify_obj_isSome, List.filter_cons,
      jsStringify_str_isSome, apiExternalQuoteJs]

/-! ### Decimal digits and number-literal parsing -/

/-- A digit character is not any specific non-digit character. -/
theorem ne_of_isDigit (c x : Char) (h : c.isDigit = true) (hx : x.isDigit = false) :
    ¬ c = x := fun e => by rw [e, hx] at h; cases h

/-- Digit characters have codes 48–57. -/
theorem isDigit_toNat (c : Char) (h : c.isDigit = true) :
    48 ≤ c.toNat ∧ c.toNat ≤ 57 := by
  simp [Char.isDigit] at h
  obtain ⟨h1, h2⟩ := h
  have h3 : (48 : Nat) ≤ c.val.toNat := h1
  have h5 : c.val.toNat ≤ 57 := h2
  have h4 : c.toNat = c.val.toNat := rfl
  omega

/-- The character of a digit value has that code. -/
theorem toNat_digitChar (m : Nat) (h : m < 10) : (Char.ofNat (48 + m)).toNat = 48 + m := by
  interval_cases m <;> decide

/-- The character of a digit value is a digit. -/
theorem isDigit_digitChar (m : Nat) (h : m < 10) : (Char.ofNat (48 + m)).isDigit = true := by
  interval_cases m <;> decide

/-- Function `natDigits` produces digit characters only. -/
theorem natDigits_all_digit (n : Nat) : ∀ c ∈ natDigits n, c.isDigit = true := by
  induction n using Nat.strong_induction_on with
  | _ n ih =>
    rw [natDigits]
    split
    · intro c hc
      rw [List.mem_singleton] at hc
      subst hc
      exact isDigit_digitChar n (by omega)
    · intro c hc
      rcases List.mem_append.1 hc with h | h
      · exact ih (n / 10) (Nat.div_lt_self (by omega) (by omega)) c h
      · rw [List.mem_singleton] at h
        subst h
        exact isDigit_digitChar (n % 10) (Nat.mod_lt _ (by omega))

/-- Function `natDigits` is never empty. -/
theorem natDigits_ne_nil (n : Nat) : natDigits n ≠ [] := by
  rw [natDigits]
  split
  · simp
  · simp

/-- Reading the digits of `n` back yields `n`. -/
theorem digitsVal_natDigits (n : Nat) : digitsVal (natDigits n) = n := by
  induction n using Nat.strong_induction_on with
  | _ n ih =>
    rw [natDigits]
    split
    · rename_i h
      simp [digitsVal, toNat_digitChar n h]
    · rename_i h
      have hlt : n / 10 < n := Nat.div_lt_self (by omega) (by omega)
      have hm : (Char.ofNat (48 + n % 10)).toNat = 48 + n % 10 :=
        toNat_digitChar _ (Nat.mod_lt _ (by omega))
      simp [digitsVal, List.foldl_append, hm]
      rw [show (List.foldl (fun a c => a * 10 + (c.toNat - 48)) 0 (natDigits (n / 10)))
          = digitsVal (natDigits (n / 10)) from rfl, ih _ hlt]
      omega

/-- A digit run followed by a non-digit boundary splits as expected under
`takeWhile`/`dropWhile`. -/
theorem takeDrop_digits (ds rest : List Char) (hd : ∀ c ∈ ds, c.isDigit = true)
    (hr : ∀ c, rest.head? = some c → c.isDigit = false) :
    (ds ++ rest).takeWhile Char.isDigit = ds ∧
    (ds ++ rest).dropWhile Char.isDigit = rest := by
  induction ds with
  | nil =>
    simp only [List.nil_append]
    match rest with
    | [] => exact ⟨rfl, rfl⟩
    | c :: r' =>
      rw [List.takeWhile_cons, List.dropWhile_cons, hr c rfl]
      exact ⟨rfl, rfl⟩
  | cons c cs ih =>
    have hc : c.isDigit = true := hd c (List.mem_cons_self c cs)
    have ih' := ih (fun x hx => hd x (List.mem_cons_of_mem c hx))
    rw [List.cons_append, List.takeWhile_cons, List.dropWhile_cons, hc]
    simp only [if_true]
    exact ⟨by rw [ih'.1], by rw [ih'.2]⟩

/-- Evaluation of `parseNum` on an unsigned digit run at a boundary that is
neither digit, dot nor exponent marker. -/
theorem parseNum_digits (ds rest : List Char) (hne : ds ≠ [])
    (hd : ∀ c ∈ ds, c.isDigit = true)
    (hr : ∀ c, rest.head? = some c →
      c.isDigit = false ∧ ¬ c = '.' ∧ ¬ c = 'e' ∧ ¬ c = 'E') :
    parseNum (ds ++ rest) = some (.num (digitsVal ds), rest) := by
  match ds, hne with
  | c :: cs, _ =>
    have hc : c.isDigit = true := hd c (List.mem_cons_self c cs)
    have hcm : ¬ c = '-' := ne_of_isDigit c '-' hc (by decide)
    have htd := takeDrop_digits (c :: cs) rest hd (fun x hx => (hr x hx).1)
    have hdot : ¬ (rest.head? = some ('.' : Char)) := by
      intro he
      match rest, he with
      | x :: r', he => exact absurd (by simpa using he) (hr x rfl).2.1
    have he1 : ¬ (rest.head? = some ('e' : Char)) := by
      intro he
      match rest, he with
      | x :: r', he => exact absurd (by simpa using he) (hr x rfl).2.2.1
    have he2 : ¬ (rest.head? = some ('E' : Char)) := by
      intro he
      match rest, he with
      | x :: r', he => exact absurd (by simpa using he) (hr x rfl).2.2.2
    rw [List.cons_append] at htd
    simp [parseNum, List.cons_append, List.head?_cons, Option.some.injEq, hcm,
      htd.1, htd.2, hdot, he1, he2]
    split_ifs with h0
    · intro _
      rw [h0]
      simp
    · intro _
      simp [digitsVal]

/-- Evaluation of `parseNum` on a signed digit run with nonzero value. -/
theorem parseNum_neg_digits (ds rest : List Char) (hne : ds ≠ [])
    (hd : ∀ c ∈ ds, c.isDigit = true) (hnz : ¬ digitsVal ds = 0)
    (hr : ∀ c, rest.head? = some c →
      c.isDigit = false ∧ ¬ c = '.' ∧ ¬ c = 'e' ∧ ¬ c = 'E') :
    parseNum ('-' :: (ds ++ rest)) = some (.num (-(digitsVal ds : Int)), rest) := by
  match ds, hne with
  | c :: cs, _ =>
    have htd := takeDrop_digits (c :: cs) rest hd (fun x hx => (hr x hx).1)
    have hdot : ¬ (rest.head? = some ('.' : Char)) := by
      intro he
      match rest, he with
      | x :: r', he => exact absurd (by simpa using he) (hr x rfl).2.1
    have he1 : ¬ (rest.head? = some ('e' : Char)) := by
      intro he
      match rest, he with
      | x :: r', he => exact absurd (by simpa using he) (hr x rfl).2.2.1
    have he2 : ¬ (rest.head? = some ('E' : Char)) := by
      intro he
      match rest, he with
      | x :: r', he => exact absurd (by simpa using he) (hr x rfl).2.2.2
    rw [List.cons_append] at htd
    simp [parseNum, List.cons_append, List.head?_cons, Option.some.injEq,
      List.tail_cons, htd.1, htd.2, hdot, he1, he2, hnz]
    intro _
    simp [digitsVal]

/-- Function `parseNum` reads back exactly the decimal rendering of any integer, at
any boundary that cannot extend the literal. -/
theorem parseNum_intChars (i : Int) (rest : List Char)
    (hr : ∀ c, rest.head? = some c →
      c.isDigit = false ∧ ¬ c = '.' ∧ ¬ c = 'e' ∧ ¬ c = 'E') :
    parseNum (intChars i ++ rest) = some (.num i, rest) := by
  by_cases hi : i < 0
  · rw [intChars, if_pos hi, List.cons_append]
    have hnz : ¬ digitsVal (natDigits i.natAbs) = 0 := by
      rw [digitsVal_natDigits]
      omega
    rw [parseNum_neg_digits _ rest (natDigits_ne_nil _) (natDigits_all_digit _) hnz hr]
    simp [digitsVal_natDigits, Int.ofNat_natAbs_of_nonpos (le_of_lt hi)]
  · rw [intChars, if_neg hi]
    rw [parseNum_digits _ rest (natDigits_ne_nil _) (natDigits_all_digit _) hr]
    simp [digitsVal_natDigits, Int.toNat_of_nonneg (by omega : (0 : Int) ≤ i)]

/-- String-literal bodies without quote or backslash parse back verbatim. -/
theorem parseStrChars_plain (cs rest : List Char)
    (h : ∀ c ∈ cs, ¬ c = '"' ∧ ¬ c = '\\') :
    parseStrChars (cs ++ '"' :: rest) = some (cs, rest) := by
  induction cs with
  | nil =>
    rw [List.nil_append, parseStrChars.eq_def]
    simp
  | cons c cs ih =>
    have hc := h c (List.mem_cons_self c cs)
    rw [List.cons_append, parseStrChars.eq_def]
    simp [hc.1, hc.2, ih (fun x hx => h x (List.mem_cons_of_mem c hx))]

/-- Function `skipWs` keeps a list whose head is not whitespace. -/
theorem skipWs_cons (c : Char) (l : List Char) (h : ¬ c.toNat ≤ 32) :
    skipWs (c :: l) = c :: l := by
  simp [skipWs, List.dropWhile_cons, h]

/-- The value production reads back an integer literal. -/
theorem parseVal_intChars (f : Nat) (i : Int) (rest : List Char)
    (hr : ∀ c, rest.head? = some c →
      c.isDigit = false ∧ ¬ c = '.' ∧ ¬ c = 'e' ∧ ¬ c = 'E') :
    parseVal (f + 1) (intChars i ++ rest) = some (.num i, rest) := by
  by_cases hi : i < 0
  · have hich : intChars i = '-' :: natDigits i.natAbs := by rw [intChars, if_pos hi]
    rw [hich, List.cons_append, parseVal, skipWs_cons _ _ (by decide)]
    simp only [show (('-' : Char) = '\x7b') = False by decide,
      show (('-' : Char) = '[') = False by decide,
      show (('-' : Char) = '"') = False by decide,
      show (('-' : Char) = 't') = False by decide,
      show (('-' : Char) = 'f') = False by decide,
      show (('-' : Char) = 'n') = False by decide, if_false,
      show (('-' : Char) = '-' ∨ ('-' : Char).isDigit = true) = True by simp, if_true]
    rw [← List.cons_append, ← hich, parseNum_intChars i rest hr]
    simp
  · have hich : intChars i = natDigits i.toNat := by rw [intChars, if_neg hi]
    obtain ⟨c, cs, hcons⟩ : ∃ c cs, natDigits i.toNat = c :: cs := by
      match h : natDigits i.toNat with
      | [] => exact absurd h (natDigits_ne_nil _)
      | c :: cs => exact ⟨c, cs, rfl⟩
    have hc : c.isDigit = true :=
      natDigits_all_digit _ c (by rw [hcons]; exact List.mem_cons_self c cs)
    have hgt : ¬ c.toNat ≤ 32 := by
      have := isDigit_toNat c hc
      omega
    rw [hich, hcons, List.cons_append, parseVal, skipWs_cons _ _ hgt]
    simp only [eq_false (ne_of_isDigit c '\x7b' hc (by decide)),
      eq_false (ne_of_isDigit c '[' hc (by decide)),
      eq_false (ne_of_isDigit c '"' hc (by decide)),
      eq_false (ne_of_isDigit c 't' hc (by decide)),
      eq_false (ne_of_isDigit c 'f' hc (by decide)),
      eq_false (ne_of_isDigit c 'n' hc (by decide)), if_false, hc, or_true, if_true]
    rw [← List.cons_append, ← hcons, ← hich, parseNum_intChars i rest hr]

/-- Full evaluation of the value production on `{"amount":<int>}`. -/
theorem parseVal_amount (f : Nat) (i : Int) :
    parseVal (f + 3)
      ('\x7b' :: ('"' :: ("amount".data ++ ('"' :: (':' :: (intChars i ++ ['\x7d'])))))) =
      some (.obj [("amount", .num i)], []) := by
  have h1 : parseStrChars ("amount".data ++ ('"' :: (':' :: (intChars i ++ ['\x7d']))))
      = some ("amount".data, ':' :: (intChars i ++ ['\x7d'])) := by
    refine parseStrChars_plain _ _ ?_
    decide
  have h2 : parseVal (f + 1) (intChars i ++ ['\x7d']) = some (.num i, ['\x7d']) := by
    refine parseVal_intChars f i ['\x7d'] ?_
    intro c hc
    simp at hc
    subst hc
    exact ⟨by decide, by decide, by decide, by decide⟩
  show parseVal ((f + 2) + 1) _ = _
  rw [parseVal, skipWs_cons _ _ (by decide)]
  simp only [show (('\x7b' : Char) = '\x7b') = True by simp, if_true]
  rw [skipWs_cons _ _ (by decide)]
  show parseObjLoop ((f + 1) + 1) _ _ _ = _
  rw [parseObjLoop]
  simp only [show ((true = true) ∧ (('"' : Char) = '\x7d')) = False by simp, if_false,
    show (('"' : Char) = '"') = True by simp, if_true, h1]
  rw [skipWs_cons _ _ (by decide)]
  simp only [h2]
  rw [skipWs_cons _ _ (by decide)]
  simp [objSet]

/-- The serialization of `{amount: I}`: the object braces, the quoted key,
and the bare decimal literal of `I`. -/
theorem stringify_amount (i : Int) :
    stringifyBigJSON (.obj [("amount", .num i)]) =
      some (String.mk
        ('\x7b' :: ('"' :: ("amount".data ++ ('"' :: (':' :: (intChars i ++ ['\x7d']))))))) := by
  simp only [stringifyBigJSON, jsStringify, jsStringifyFields,
    show quoteStr "amount" = '"' :: ("amount".data ++ ['"']) from rfl]
  simp [show ("amount".data) = ['a', 'm', 'o', 'u', 'n', 't'] from rfl]

/-- C2: for every integer — in particular every integer beyond the safe
double range — encoding `{amount: I}` emits `I` as a bare unquoted decimal
literal, and decoding the encoded string recovers exactly the arbitrary-
precision integer value `I` (constructor `num`, not a float and not a
string). -/
theorem bigJSON_roundtrip (i : Int) (hbig : 2 ^ 53 - 1 < i.natAbs) :
    ∃ s : String,
      stringifyBigJSON (.obj [("amount", .num i)]) = some s ∧
      s = "\x7b\"amount\":" ++ String.mk (intChars i) ++ "\x7d" ∧
      parseBigJSON s = .parsed (.obj [("amount", .num i)]) := by
  refine ⟨String.mk
    ('\x7b' :: ('"' :: ("amount".data ++ ('"' :: (':' :: (intChars i ++ ['\x7d'])))))),
    stringify_amount i, ?_, ?_⟩
  · show String.mk _ = String.mk _
    apply congrArg
    simp [show ("amount".data) = ['a', 'm', 'o', 'u', 'n', 't'] from rfl,
      show ("\x7b\"amount\":".data) = ['\x7b', '"', 'a', 'm', 'o', 'u', 'n', 't', '"', ':']
        from rfl, show ("\x7d".data) = ['\x7d'] from rfl]
  · have hlen : (String.mk
        ('\x7b' :: ('"' :: ("amount".data ++ ('"' :: (':' :: (intChars i ++ ['\x7d']))))))).data.length
        = ("amount".data ++ ('"' :: (':' :: (intChars i ++ ['\x7d'])))).length + 2 := by
      simp
    rw [parseBigJSON, jsonParse, hlen, parseVal_amount]
    simp [skipWs]

/-- Witness for C2 at `I = 2 ^ 60 + 7`, beyond the safe double range. -/
theorem bigJSON_roundtrip_witness :
    2 ^ 53 - 1 < (2 ^ 60 + 7 : Int).natAbs ∧
    (∃ s : String,
      stringifyBigJSON (.obj [("amount", .num (2 ^ 60 + 7))]) = some s ∧
      s = "\x7b\"amount\":" ++ String.mk (intChars (2 ^ 60 + 7)) ++ "\x7d" ∧
      parseBigJSON s = .parsed (.obj [("amount", .num (2 ^ 60 + 7))])) :=
  ⟨by decide, bigJSON_roundtrip (2 ^ 60 + 7) (by decide)⟩

/-! ### The signature pipeline -/

/-- Folding header updates into the streaming MAC appends the concatenated
name/value byte runs. -/
theorem macFoldl (l : Headers) (m : MacState) :
    l.foldl (fun m kv => macUpdate (macUpdate m (utf8 kv.1)) (utf8 kv.2)) m
      = ⟨m.key, m.buf ++ (l.map (fun kv => utf8 kv.1 ++ utf8 kv.2)).flatten⟩ := by
  induction l generalizing m with
  | nil => cases m; simp
  | cons kv t ih =>
    rw [List.foldl_cons, ih]
    simp [macUpdate, List.append_assoc]

/-- The streamed signature is the HMAC of the flat message. -/
theorem computeSignature_eq (key : List Nat) (url : String) (headers : Headers)
    (data : Option ReqData) :
    computeSignature key url headers data
      = encodeBase64 (hmacSha256 key (macMessage url headers (bodyStringToSign data))) := by
  rw [computeSignature, macFoldl]
  simp [macCreate, macUpdate, macDigest, macMessage, List.append_assoc]

/-- Setting a header and reading it back by exact name yields the set
value. -/
theorem getHeader_setHeader_self (hs : Headers) (k v : String) :
    getHeader (setHeader hs k v) k = some v := by
  rw [setHeader]
  split
  · rename_i hany
    rw [getHeader, List.find?_map]
    have hcomp : ((fun p : String × String => decide (p.1 = k)) ∘
        (fun p : String × String => if p.1 = k then (k, v) else p)) =
        fun p : String × String => decide (p.1 = k) := by
      funext q
      by_cases hq : q.1 = k <;> simp [hq]
    rw [hcomp]
    obtain ⟨a, ha, hpa⟩ := List.any_eq_true.1 hany
    have hsome : (hs.find? fun p => decide (p.1 = k)).isSome := by
      rw [List.find?_isSome]
      exact ⟨a, ha, by simpa using hpa⟩
    obtain ⟨b, hb⟩ := Option.isSome_iff_exists.1 hsome
    have hbk : b.1 = k := by simpa using List.find?_some hb
    rw [hb]
    simp [hbk]
  · rename_i hany
    rw [getHeader, List.find?_append]
    have hnone : hs.find? (fun p => decide (p.1 = k)) = none := by
      rw [List.find?_eq_none]
      intro x hx
      simp only [decide_eq_true_eq]
      intro he
      exact hany (List.any_eq_true.2 ⟨x, hx, by simp [he]⟩)
    rw [hnone]
    simp

/-- The composed source filters equal the claim's single conjunctive
filter. -/
theorem renegadeEntries_eq_filter (hs : Headers) :
    renegadeEntries hs = hs.filter
      (fun kv => strStartsWith (toLowerStr kv.1) renegadeHeaderNs
        && ! (toLowerStr kv.1 == RENEGADE_AUTH_HEADER)) := by
  rw [renegadeEntries, List.filter_filter]
  apply List.filter_congr
  intro kv _
  cases h1 : strStartsWith (toLowerStr kv.1) renegadeHeaderNs <;>
    cases h2 : (toLowerStr kv.1 == RENEGADE_AUTH_HEADER) <;> simp [h1, h2]

/-- C1: the signature header attached by `addAuthInterceptor` is exactly the
claim's formula — HMAC-SHA256 keyed with the base64-decoded secret over the
path bytes, the name/value bytes of the namespace headers (signature header
excluded) in sorted name order, and the serialized body bytes, base64-encoded
with trailing padding stripped.  The header map of the outbound request is
the caller map with the expiration header set. -/
theorem addAuthInterceptor_signature_formula (secret : String) (now : Nat) (p : String)
    (H : Headers) (d : Option ReqData) :
    getHeader (addAuthInterceptor (decodeBase64 secret) now ⟨p, H, d⟩).headers
        RENEGADE_AUTH_HEADER
      = some (specSignature secret p
          (setHeader H RENEGADE_AUTH_EXPIRATION_HEADER
            (natToString (now + REQUEST_SIGNATURE_DURATION_MS)))
          (bodyStringToSign d)) := by
  simp only [addAuthInterceptor]
  rw [getHeader_setHeader_self, computeSignature_eq]
  simp only [specSignature]
  rw [macMessage, signedHeaders, sortHeaders, renegadeEntries_eq_filter]

/-- Setting a fresh header appends it. -/
theorem setHeader_of_no_key (hs : Headers) (k v : String) (h : ∀ q ∈ hs, ¬ q.1 = k) :
    setHeader hs k v = hs ++ [(k, v)] := by
  rw [setHeader, if_neg]
  intro hany
  obtain ⟨a, ha, hpa⟩ := List.any_eq_true.1 hany
  exact h a ha (by simpa using hpa)

/-- C3: every request sent through the transport carries exactly one
expiration header valued now plus the ten-second window and exactly one
signature header (counted case-insensitively); the signature is computed
over the same relative url, the final header set minus the signature header
itself, and the same body that is transmitted (for objects, their BigInt-safe
stringification; for strings, the string itself).  The hypothesis is that
the caller-supplied headers do not themselves use the two reserved
authentication header names. -/
theorem sendRequest_auth_headers (key : List Nat) (now : Nat) (path : String) (H : Headers)
    (d : Option ReqData)
    (hH : ∀ q ∈ H, ¬ toLowerStr q.1 = RENEGADE_AUTH_EXPIRATION_HEADER ∧
      ¬ toLowerStr q.1 = RENEGADE_AUTH_HEADER) :
    (sendRequest key now path H d).url = path ∧
    ((sendRequest key now path H d).headers.countP
      (fun q => toLowerStr q.1 == RENEGADE_AUTH_EXPIRATION_HEADER)) = 1 ∧
    getHeader (sendRequest key now path H d).headers RENEGADE_AUTH_EXPIRATION_HEADER
      = some (natToString (now + REQUEST_SIGNATURE_DURATION_MS)) ∧
    ((sendRequest key now path H d).headers.countP
      (fun q => toLowerStr q.1 == RENEGADE_AUTH_HEADER)) = 1 ∧
    getHeader (sendRequest key now path H d).headers RENEGADE_AUTH_HEADER
      = some (computeSignature key path
          ((sendRequest key now path H d).headers.filter
            (fun q => ! (toLowerStr q.1 == RENEGADE_AUTH_HEADER))) d) ∧
    (∀ fs, d = some (.jobj (.obj fs)) →
      (sendRequest key now path H d).body = some (bodyStringToSign d)) ∧
    (∀ s, d = some (.jstr s) → (sendRequest key now path H d).body = some s) := by
  have hexpLower : toLowerStr RENEGADE_AUTH_EXPIRATION_HEADER
      = RENEGADE_AUTH_EXPIRATION_HEADER := by decide
  have hauthLower : toLowerStr RENEGADE_AUTH_HEADER = RENEGADE_AUTH_HEADER := by decide
  have hno1 : ∀ q ∈ H, ¬ q.1 = RENEGADE_AUTH_EXPIRATION_HEADER := fun q hq he =>
    (hH q hq).1 (by rw [he, hexpLower])
  have hno2 : ∀ q ∈ H, ¬ q.1 = RENEGADE_AUTH_HEADER := fun q hq he =>
    (hH q hq).2 (by rw [he, hauthLower])
  have hset1 : setHeader H RENEGADE_AUTH_EXPIRATION_HEADER
      (natToString (now + REQUEST_SIGNATURE_DURATION_MS))
      = H ++ [(RENEGADE_AUTH_EXPIRATION_HEADER,
          natToString (now + REQUEST_SIGNATURE_DURATION_MS))] :=
    setHeader_of_no_key _ _ _ hno1
  have hno2' : ∀ q ∈ H ++ [(RENEGADE_AUTH_EXPIRATION_HEADER,
      natToString (now + REQUEST_SIGNATURE_DURATION_MS))], ¬ q.1 = RENEGADE_AUTH_HEADER := by
    intro q hq
    rcases List.mem_append.1 hq with hqa | hqb
    · exact hno2 q hqa
    · rw [List.mem_singleton] at hqb
      subst hqb
      show ¬ RENEGADE_AUTH_EXPIRATION_HEADER = RENEGADE_AUTH_HEADER
      decide
  have hE : (sendRequest key now path H d).headers
      = (H ++ [(RENEGADE_AUTH_EXPIRATION_HEADER,
            natToString (now + REQUEST_SIGNATURE_DURATION_MS))])
        ++ [(RENEGADE_AUTH_HEADER, computeSignature key path
            (H ++ [(RENEGADE_AUTH_EXPIRATION_HEADER,
              natToString (now + REQUEST_SIGNATURE_DURATION_MS))]) d)] := by
    simp only [sendRequest, addAuthInterceptor]
    rw [hset1, setHeader_of_no_key _ _ _ hno2']
  have hcnt1 : H.countP (fun q => toLowerStr q.1 == RENEGADE_AUTH_EXPIRATION_HEADER) = 0 := by
    rw [List.countP_eq_zero]
    intro q hq
    simpa using (hH q hq).1
  have hcnt2 : H.countP (fun q => toLowerStr q.1 == RENEGADE_AUTH_HEADER) = 0 := by
    rw [List.countP_eq_zero]
    intro q hq
    simpa using (hH q hq).2
  have hfindH1 : H.find? (fun q => q.1 = RENEGADE_AUTH_EXPIRATION_HEADER) = none := by
    rw [List.find?_eq_none]
    intro x hx
    simpa using hno1 x hx
  have hfindH2 : H.find? (fun q => q.1 = RENEGADE_AUTH_HEADER) = none := by
    rw [List.find?_eq_none]
    intro x hx
    simpa using hno2 x hx
  have hfilterH : H.filter (fun q => ! (toLowerStr q.1 == RENEGADE_AUTH_HEADER)) = H := by
    rw [List.filter_eq_self]
    intro q hq
    simpa using (hH q hq).2
  refine ⟨rfl, ?_, ?_, ?_, ?_, ?_, ?_⟩
  · rw [hE]
    simp [List.countP_append, hcnt1, List.countP_cons,
      show (toLowerStr RENEGADE_AUTH_EXPIRATION_HEADER == RENEGADE_AUTH_EXPIRATION_HEADER)
        = true by decide,
      show (toLowerStr RENEGADE_AUTH_HEADER == RENEGADE_AUTH_EXPIRATION_HEADER) = false
        by decide]
  · rw [hE, getHeader, List.find?_append, List.find?_append, hfindH1]
    simp
  · rw [hE]
    simp [List.countP_append, hcnt2, List.countP_cons,
      show (toLowerStr RENEGADE_AUTH_EXPIRATION_HEADER == RENEGADE_AUTH_HEADER) = false
        by decide,
      show (toLowerStr RENEGADE_AUTH_HEADER == RENEGADE_AUTH_HEADER) = true by decide]
  · rw [hE, getHeader, List.find?_append, List.find?_append, hfindH2]
    rw [List.filter_append, List.filter_append, hfilterH]
    simp [show (RENEGADE_AUTH_EXPIRATION_HEADER = RENEGADE_AUTH_HEADER) = False by decide,
      show (! (toLowerStr RENEGADE_AUTH_EXPIRATION_HEADER == RENEGADE_AUTH_HEADER)) = true
        by decide,
      show (! (toLowerStr RENEGADE_AUTH_HEADER == RENEGADE_AUTH_HEADER)) = false by decide]
  · intro fs hd
    subst hd
    simp [sendRequest, addAuthInterceptor, transformRequestData, bodyStringToSign,
      stringifyBigJSON, jsStringify]
  · intro s hd
    subst hd
    simp [sendRequest, addAuthInterceptor, transformRequestData]

/-- Witness for C3 at concrete inputs: the client's own header set, a quote
request body, and a fixed clock. -/
theorem sendRequest_auth_headers_witness :
    (∀ q ∈ ([("x-renegade-api-key", "KEY")] : Headers),
      ¬ toLowerStr q.1 = RENEGADE_AUTH_EXPIRATION_HEADER ∧
      ¬ toLowerStr q.1 = RENEGADE_AUTH_HEADER) ∧
    getHeader (sendRequest (decodeBase64 "c2VjcmV0") 1700000000000 "/v0/matching-engine/quote"
        [("x-renegade-api-key", "KEY")] (some (.jobj (quoteRequestJs exOrder)))).headers
        RENEGADE_AUTH_EXPIRATION_HEADER = some (natToString 1700000010000) ∧
    ((sendRequest (decodeBase64 "c2VjcmV0") 1700000000000 "/v0/matching-engine/quote"
        [("x-renegade-api-key", "KEY")] (some (.jobj (quoteRequestJs exOrder)))).headers.countP
      (fun q => toLowerStr q.1 == RENEGADE_AUTH_HEADER)) = 1 :=
  ⟨by decide,
   (sendRequest_auth_headers (decodeBase64 "c2VjcmV0") 1700000000000
      "/v0/matching-engine/quote" [("x-renegade-api-key", "KEY")]
      (some (.jobj (quoteRequestJs exOrder))) (by decide)).2.2.1,
   (sendRequest_auth_headers (decodeBase64 "c2VjcmV0") 1700000000000
      "/v0/matching-engine/quote" [("x-renegade-api-key", "KEY")]
      (some (.jobj (quoteRequestJs exOrder))) (by decide)).2.2.2.1⟩

/-! ### The header sort: order lemmas and permutation invariance -/

/-- Characters with equal codes are equal. -/
theorem char_eq_of_toNat_eq (a b : Char) (h : a.toNat = b.toNat) : a = b := by
  apply Char.ext
  exact UInt32.ext h

/-- Function `lexCompare` is zero exactly on equal lists. -/
theorem lexCompare_eq_zero_iff : ∀ a b : List Char, lexCompare a b = 0 ↔ a = b
  | [], [] => by simp [lexCompare]
  | [], _ :: _ => by simp [lexCompare]
  | _ :: _, [] => by simp [lexCompare]
  | x :: as, y :: bs => by
    simp only [lexCompare]
    split_ifs with h1 h2
    · refine ⟨fun h => absurd h (by decide), fun he => ?_⟩
      rw [List.cons.injEq] at he
      have hxy : x.toNat = y.toNat := by rw [he.1]
      omega
    · refine ⟨fun h => absurd h (by decide), fun he => ?_⟩
      rw [List.cons.injEq] at he
      have hxy : x.toNat = y.toNat := by rw [he.1]
      omega
    · have hxy : x = y := char_eq_of_toNat_eq _ _ (by omega)
      subst hxy
      rw [lexCompare_eq_zero_iff as bs]
      simp

/-- Swapping the arguments negates `lexCompare`. -/
theorem lexCompare_swap : ∀ a b : List Char, lexCompare a b = -lexCompare b a
  | [], [] => by simp [lexCompare]
  | [], _ :: _ => by simp [lexCompare]
  | _ :: _, [] => by simp [lexCompare]
  | x :: as, y :: bs => by
    simp only [lexCompare]
    split_ifs with h1 h2 h3 h4 h5 h6 <;> try omega
    exact lexCompare_swap as bs

/-- Function `lexCompare` is transitive on the non-positive side. -/
theorem lexCompare_le_trans : ∀ a b c : List Char,
    lexCompare a b ≤ 0 → lexCompare b c ≤ 0 → lexCompare a c ≤ 0
  | [], b, c, _, _ => by cases c <;> simp [lexCompare]
  | x :: as, [], c, h1, _ => by simp [lexCompare] at h1
  | x :: as, y :: bs, [], _, h2 => by simp [lexCompare] at h2
  | x :: as, y :: bs, z :: cs, h1, h2 => by
    simp only [lexCompare] at h1 h2 ⊢
    split_ifs at h1 h2 ⊢ <;> try omega
    all_goals
      exact lexCompare_le_trans as bs cs (by assumption) (by assumption)

/-- Strings with equal character lists are equal. -/
theorem string_eq_of_data_eq (s t : String) (h : s.data = t.data) : s = t := by
  cases s
  cases t
  exact congrArg String.mk h

/-- A general sorted-unique principle: two mutually permuted lists, each
pairwise-ordered by an antisymmetric relation, are equal. -/
theorem eq_of_perm_of_pairwise {α : Type} {r : α → α → Prop}
    (antisymm : ∀ a b, r a b → r b a → a = b) :
    ∀ {l₁ l₂ : List α}, l₁.Perm l₂ → l₁.Pairwise r → l₂.Pairwise r → l₁ = l₂ := by
  intro l₁
  induction l₁ with
  | nil =>
    intro l₂ hp _ _
    exact (List.Perm.eq_nil hp.symm).symm
  | cons a t ih =>
    intro l₂ hp h1 h2
    match l₂ with
    | [] => exact absurd hp.eq_nil (by simp)
    | b :: t₂ =>
      by_cases hab : a = b
      · subst hab
        rw [ih (hp.cons_inv) (List.pairwise_cons.1 h1).2 (List.pairwise_cons.1 h2).2]
      · exfalso
        have hain : a ∈ b :: t₂ := hp.mem_iff.1 (List.mem_cons_self a t)
        have hbin : b ∈ a :: t := hp.symm.mem_iff.1 (List.mem_cons_self b t₂)
        have hat₂ : a ∈ t₂ := by
          rcases List.mem_cons.1 hain with h | h
          · exact absurd h hab
          · exact h
        have hbt : b ∈ t := by
          rcases List.mem_cons.1 hbin with h | h
          · exact absurd h.symm hab
          · exact h
        exact hab (antisymm a b ((List.pairwise_cons.1 h1).1 b hbt)
          ((List.pairwise_cons.1 h2).1 a hat₂))

/-- The header sort is a function of the header multiset alone (given
pairwise-distinct names): permuting the input does not change the sorted
output. -/
theorem sortHeaders_eq_of_perm (l₁ l₂ : Headers) (hp : l₁.Perm l₂)
    (hnd : (l₁.map Prod.fst).Nodup) : sortHeaders l₁ = sortHeaders l₂ := by
  rw [sortHeaders, sortHeaders]
  have htrans : ∀ a b c : String × String,
      (fun a b : String × String => (localeCompare a.1 b.1 ≤ 0 : Bool)) a b →
      (fun a b : String × String => (localeCompare a.1 b.1 ≤ 0 : Bool)) b c →
      (fun a b : String × String => (localeCompare a.1 b.1 ≤ 0 : Bool)) a c := by
    intro a b c hab hbc
    simp only [decide_eq_true_eq] at *
    exact lexCompare_le_trans _ _ _ hab hbc
  have htotal : ∀ a b : String × String,
      ((fun a b : String × String => (localeCompare a.1 b.1 ≤ 0 : Bool)) a b ||
       (fun a b : String × String => (localeCompare a.1 b.1 ≤ 0 : Bool)) b a) := by
    intro a b
    by_cases h : localeCompare a.1 b.1 ≤ 0
    · simp [h]
    · have hs := lexCompare_swap a.1.data b.1.data
      have : localeCompare b.1 a.1 ≤ 0 := by
        rw [localeCompare] at h ⊢
        omega
      simp [this]
  have hne₁ : l₁.Pairwise (fun a b : String × String => a.1 ≠ b.1) :=
    List.pairwise_map.1 hnd
  have hne₂ : l₂.Pairwise (fun a b : String × String => a.1 ≠ b.1) :=
    (List.Perm.pairwise_iff (fun h => Ne.symm h) hp).1 hne₁
  have hsorted₁ := List.sorted_mergeSort htrans htotal l₁
  have hsorted₂ := List.sorted_mergeSort htrans htotal l₂
  have hperm : (List.mergeSort l₁
        (fun a b : String × String => (localeCompare a.1 b.1 ≤ 0 : Bool))).Perm
      (List.mergeSort l₂ (fun a b : String × String => (localeCompare a.1 b.1 ≤ 0 : Bool))) :=
    (List.mergeSort_perm l₁ _).trans (hp.trans (List.mergeSort_perm l₂ _).symm)
  have hneS₁ : (List.mergeSort l₁
        (fun a b : String × String => (localeCompare a.1 b.1 ≤ 0 : Bool))).Pairwise
      (fun a b : String × String => a.1 ≠ b.1) :=
    (List.Perm.pairwise_iff (fun h => Ne.symm h) (List.mergeSort_perm l₁ _)).2 hne₁
  have hneS₂ : (List.mergeSort l₂
        (fun a b : String × String => (localeCompare a.1 b.1 ≤ 0 : Bool))).Pairwise
      (fun a b : String × String => a.1 ≠ b.1) :=
    (List.Perm.pairwise_iff (fun h => Ne.symm h) (List.mergeSort_perm l₂ _)).2 hne₂
  refine eq_of_perm_of_pairwise
    (r := fun a b : String × String => localeCompare a.1 b.1 ≤ 0 ∧ a.1 ≠ b.1)
    ?_ hperm ?_ ?_
  · rintro a b ⟨hab, hne⟩ ⟨hba, _⟩
    exfalso
    apply hne
    apply string_eq_of_data_eq
    rw [← lexCompare_eq_zero_iff]
    have hs := lexCompare_swap a.1.data b.1.data
    rw [localeCompare] at hab hba
    omega
  · exact (hsorted₁.and hneS₁).imp (fun h => ⟨by simpa using h.1, h.2⟩)
  · exact (hsorted₂.and hneS₂).imp (fun h => ⟨by simpa using h.1, h.2⟩)

/-- The signature depends on the headers only through the multiset of
reserved non-signature entries (with pairwise-distinct names). -/
theorem computeSignature_perm_helper (key : List Nat) (url : String) (d : Option ReqData)
    (h₁ h₂ : Headers) (hp : (renegadeEntries h₁).Perm (renegadeEntries h₂))
    (hnd : ((renegadeEntries h₁).map Prod.fst).Nodup) :
    computeSignature key url h₁ d = computeSignature key url h₂ d := by
  rw [computeSignature_eq, computeSignature_eq, macMessage, macMessage, signedHeaders,
    signedHeaders, sortHeaders_eq_of_perm _ _ hp hnd]

/-- Overwriting or adding the signature header leaves the selected entries
unchanged (its name is dropped by the signer's filter on both sides). -/
theorem renegadeEntries_map_auth (t : Headers) (w : String) :
    renegadeEntries (t.map (fun p => if p.1 = RENEGADE_AUTH_HEADER
        then (RENEGADE_AUTH_HEADER, w) else p)) = renegadeEntries t := by
  induction t with
  | nil => rfl
  | cons p t ih =>
    simp only [renegadeEntries] at ih ⊢
    rw [List.map_cons]
    by_cases hp : p.1 = RENEGADE_AUTH_HEADER
    · rw [if_pos hp]
      simp only [List.filter_cons, hp,
        show strStartsWith (toLowerStr RENEGADE_AUTH_HEADER) renegadeHeaderNs = true
          from rfl,
        show (! (toLowerStr RENEGADE_AUTH_HEADER == RENEGADE_AUTH_HEADER)) = false
          from rfl, eq_self_iff_true, if_true, Bool.false_eq_true, if_false]
      exact ih
    · rw [if_neg hp, List.filter_cons, List.filter_cons]
      cases h1 : strStartsWith (toLowerStr p.1) renegadeHeaderNs
      · simp only [h1, Bool.false_eq_true, if_false]
        exact ih
      · simp only [h1, if_true]
        rw [List.filter_cons, List.filter_cons]
        cases h2 : (! (toLowerStr p.1 == RENEGADE_AUTH_HEADER))
        · simp only [h2, Bool.false_eq_true, if_false]
          exact ih
        · simp only [h2, if_true]
          rw [ih]

/-- Overwriting or adding the signature header leaves the selected entries
unchanged (its name is dropped by the signer's filter on both sides). -/
theorem renegadeEntries_setHeader_auth (hs : Headers) (w : String) :
    renegadeEntries (setHeader hs RENEGADE_AUTH_HEADER w) = renegadeEntries hs := by
  rw [setHeader]
  split
  · exact renegadeEntries_map_auth hs w
  · rw [renegadeEntries, renegadeEntries, List.filter_append]
    simp [show strStartsWith (toLowerStr RENEGADE_AUTH_HEADER) renegadeHeaderNs
        = true from rfl,
      show (! (toLowerStr RENEGADE_AUTH_HEADER == RENEGADE_AUTH_HEADER)) = false from rfl]

/-- C5: two requests agreeing (as a multiset, names distinct) on the
reserved non-signature headers get the same signature, whatever their other
headers are; and setting the `x-renegade-auth` header itself never changes
the signature — it is not part of its own MAC input. -/
theorem signature_ignores_foreign_headers (key : List Nat) (p : String) (d : Option ReqData)
    (h₁ h₂ : Headers) (hagree : (renegadeEntries h₁).Perm (renegadeEntries h₂))
    (hnd : ((renegadeEntries h₁).map Prod.fst).Nodup) :
    computeSignature key p h₁ d = computeSignature key p h₂ d ∧
    (∀ w, computeSignature key p (setHeader h₁ RENEGADE_AUTH_HEADER w) d
      = computeSignature key p h₁ d) := by
  constructor
  · exact computeSignature_perm_helper key p d h₁ h₂ hagree hnd
  · intro w
    rw [computeSignature_eq, computeSignature_eq, macMessage, macMessage, signedHeaders,
      signedHeaders, renegadeEntries_setHeader_auth]

/-- Witness for C5: a request with a foreign header, and one with a
different foreign header plus a forged `x-renegade-auth` entry, sign
identically; overwriting the signature header is also a no-op. -/
theorem signature_ignores_foreign_headers_witness :
    computeSignature (decodeBase64 "c2VjcmV0") "/v0/q" [("x-renegade-api-key", "k"),
        ("Content-Type", "application/json")] none
      = computeSignature (decodeBase64 "c2VjcmV0") "/v0/q" [("x-renegade-api-key", "k"),
        ("Accept", "text/plain"), ("x-renegade-auth", "forged")] none ∧
    (∀ w, computeSignature (decodeBase64 "c2VjcmV0") "/v0/q"
        (setHeader [("x-renegade-api-key", "k"), ("Content-Type", "application/json")]
          RENEGADE_AUTH_HEADER w) none
      = computeSignature (decodeBase64 "c2VjcmV0") "/v0/q" [("x-renegade-api-key", "k"),
        ("Content-Type", "application/json")] none) :=
  signature_ignores_foreign_headers (decodeBase64 "c2VjcmV0") "/v0/q" none
    [("x-renegade-api-key", "k"), ("Content-Type", "application/json")]
    [("x-renegade-api-key", "k"), ("Accept", "text/plain"), ("x-renegade-auth", "forged")]
    (List.Perm.refl _) (by decide)

/-- C4 counterexample: two requests whose header maps hold the same two
reserved headers in opposite orders receive the same signature — the
signer sorts the headers, so changing the header order does not change the
output. -/
theorem signature_header_order_counterexample :
    computeSignature (decodeBase64 "c2VjcmV0") "/v0/x"
        [("x-renegade-b", "1"), ("x-renegade-a", "2")] none
      = computeSignature (decodeBase64 "c2VjcmV0") "/v0/x"
        [("x-renegade-a", "2"), ("x-renegade-b", "1")] none ∧
    ([("x-renegade-b", "1"), ("x-renegade-a", "2")] : Headers)
      ≠ [("x-renegade-a", "2"), ("x-renegade-b", "1")] := by
  constructor
  · refine computeSignature_perm_helper _ _ _ _ _ ?_ (by decide)
    have e1 : renegadeEntries [("x-renegade-b", "1"), ("x-renegade-a", "2")]
        = [("x-renegade-b", "1"), ("x-renegade-a", "2")] := rfl
    have e2 : renegadeEntries [("x-renegade-a", "2"), ("x-renegade-b", "1")]
        = [("x-renegade-a", "2"), ("x-renegade-b", "1")] := rfl
    rw [e1, e2]
    exact List.Perm.swap _ _ _
  · decide

/-- Occurrence count of each byte value in the MAC input: the signer's sort
only permutes whole header entries, so the count decomposes over the
unsorted selected entries. -/
theorem macMessage_count (p : String) (hs : Headers) (b : String) (x : Nat) :
    (macMessage p hs b).count x
      = (utf8 p).count x
        + (((renegadeEntries hs).map (fun kv => utf8 kv.1 ++ utf8 kv.2)).flatten).count x
        + (utf8 b).count x := by
  rw [macMessage, signedHeaders, sortHeaders, List.count_append, List.count_append,
    List.count_flatten, List.count_flatten]
  rw [List.Perm.sum_eq (((List.mergeSort_perm (renegadeEntries hs) _).map
    (fun kv => utf8 kv.1 ++ utf8 kv.2)).map (List.count x))]

/-- Occurrence count of the selected-header bytes of a header map holding a
selected entry `e` at an arbitrary position. -/
theorem renegadeEntries_count_split (pre suf : Headers) (e : String × String) (x : Nat)
    (hsel : (strStartsWith (toLowerStr e.1) renegadeHeaderNs
      && ! (toLowerStr e.1 == RENEGADE_AUTH_HEADER)) = true) :
    (((renegadeEntries (pre ++ e :: suf)).map
        (fun kv => utf8 kv.1 ++ utf8 kv.2)).flatten).count x
      = (((renegadeEntries pre).map (fun kv => utf8 kv.1 ++ utf8 kv.2)).flatten).count x
        + (utf8 e.1 ++ utf8 e.2).count x
        + (((renegadeEntries suf).map (fun kv => utf8 kv.1 ++ utf8 kv.2)).flatten).count x := by
  simp only [renegadeEntries_eq_filter, List.filter_append, List.filter_cons, hsel, if_true,
    List.map_append, List.map_cons, List.flatten_append, List.flatten_cons, List.count_append]
  omega

/-- C4 as amended: the signature is a deterministic pure function of
(path, reserved-header multiset, body); the signature is invariant under
reordering of the header map (with distinct names), since the signer sorts
the selected headers; and a single-byte (length-preserving) change to the
path bytes, a single-byte (length-preserving) change to the name/value
bytes of any header entry included by the signer's filter, or any change to
the body bytes changes the MAC input. -/
theorem signature_determinism_sensitivity (key : List Nat) (p p₁ p₂ : String)
    (h h₁ h₂ pre suf : Headers) (e e' : String × String) (a c : List Nat) (x y : Nat)
    (d : Option ReqData) (b b₁ b₂ : String) :
    (computeSignature key p h d = computeSignature key p h d) ∧
    (h₁.Perm h₂ → ((renegadeEntries h₁).map Prod.fst).Nodup →
      computeSignature key p h₁ d = computeSignature key p h₂ d) ∧
    (utf8 p₁ ≠ utf8 p₂ → (utf8 p₁).length = (utf8 p₂).length →
      macMessage p₁ h b ≠ macMessage p₂ h b) ∧
    ((strStartsWith (toLowerStr e.1) renegadeHeaderNs
        && ! (toLowerStr e.1 == RENEGADE_AUTH_HEADER)) = true →
      (strStartsWith (toLowerStr e'.1) renegadeHeaderNs
        && ! (toLowerStr e'.1 == RENEGADE_AUTH_HEADER)) = true →
      utf8 e.1 ++ utf8 e.2 = a ++ x :: c →
      utf8 e'.1 ++ utf8 e'.2 = a ++ y :: c →
      x ≠ y →
      macMessage p (pre ++ e :: suf) b ≠ macMessage p (pre ++ e' :: suf) b) ∧
    (utf8 b₁ ≠ utf8 b₂ → macMessage p h b₁ ≠ macMessage p h b₂) := by
  refine ⟨rfl, ?_, ?_, ?_, ?_⟩
  · intro hp hnd
    exact computeSignature_perm_helper key p d h₁ h₂
      ((hp.filter _).filter _) hnd
  · intro hne hlen hcon
    rw [macMessage, macMessage, List.append_assoc, List.append_assoc] at hcon
    exact hne (List.append_inj_left hcon hlen)
  · intro hsel hsel' he he' hxy hcon
    have hcount : (macMessage p (pre ++ e :: suf) b).count x
        = (macMessage p (pre ++ e' :: suf) b).count x := by rw [hcon]
    rw [macMessage_count, macMessage_count,
      renegadeEntries_count_split pre suf e x hsel,
      renegadeEntries_count_split pre suf e' x hsel', he, he'] at hcount
    have hyx : (y == x) = false := by
      cases hbe : y == x
      · rfl
      · exact absurd (eq_of_beq hbe) (Ne.symm hxy)
    simp only [List.count_append, List.count_cons, beq_self_eq_true, if_true, hyx,
      Bool.false_eq_true, if_false] at hcount
    omega
  · intro hne hcon
    rw [macMessage, macMessage] at hcon
    exact hne (List.append_cancel_left hcon)

/-- Witness for the amended C4: concrete header reorder keeps the signature;
a concrete path byte change, a concrete one-byte change to a selected
header's value, and a concrete body byte change each alter the MAC input. -/
theorem signature_determinism_sensitivity_witness :
    computeSignature (decodeBase64 "c2VjcmV0") "/v0/y"
        [("x-renegade-a", "1"), ("x-renegade-c", "3")] none
      = computeSignature (decodeBase64 "c2VjcmV0") "/v0/y"
        [("x-renegade-c", "3"), ("x-renegade-a", "1")] none ∧
    macMessage "/a" [("x-renegade-a", "1"), ("x-renegade-c", "3")] "body"
      ≠ macMessage "/b" [("x-renegade-a", "1"), ("x-renegade-c", "3")] "body" ∧
    macMessage "/v0/y" [("x-renegade-a", "1")] "body"
      ≠ macMessage "/v0/y" [("x-renegade-a", "2")] "body" ∧
    macMessage "/v0/y" [("x-renegade-a", "1"), ("x-renegade-c", "3")] "b1"
      ≠ macMessage "/v0/y" [("x-renegade-a", "1"), ("x-renegade-c", "3")] "b2" :=
  ⟨(signature_determinism_sensitivity (decodeBase64 "c2VjcmV0") "/v0/y" "/a" "/b"
      [("x-renegade-a", "1"), ("x-renegade-c", "3")]
      [("x-renegade-a", "1"), ("x-renegade-c", "3")]
      [("x-renegade-c", "3"), ("x-renegade-a", "1")] [] []
      ("x-renegade-a", "1") ("x-renegade-a", "2") (utf8 "x-renegade-a") [] 49 50
      none "body" "b1" "b2").2.1
      (List.Perm.swap _ _ _) (by decide),
   (signature_determinism_sensitivity (decodeBase64 "c2VjcmV0") "/v0/y" "/a" "/b"
      [("x-renegade-a", "1"), ("x-renegade-c", "3")]
      [("x-renegade-a", "1"), ("x-renegade-c", "3")]
      [("x-renegade-c", "3"), ("x-renegade-a", "1")] [] []
      ("x-renegade-a", "1") ("x-renegade-a", "2") (utf8 "x-renegade-a") [] 49 50
      none "body" "b1" "b2").2.2.1 (by decide) (by decide),
   (signature_determinism_sensitivity (decodeBase64 "c2VjcmV0") "/v0/y" "/a" "/b"
      [("x-renegade-a", "1"), ("x-renegade-c", "3")]
      [("x-renegade-a", "1"), ("x-renegade-c", "3")]
      [("x-renegade-c", "3"), ("x-renegade-a", "1")] [] []
      ("x-renegade-a", "1") ("x-renegade-a", "2") (utf8 "x-renegade-a") [] 49 50
      none "body" "b1" "b2").2.2.2.1 (by decide) (by decide) (by decide) (by decide)
      (by decide),
   (signature_determinism_sensitivity (decodeBase64 "c2VjcmV0") "/v0/y" "/a" "/b"
      [("x-renegade-a", "1"), ("x-renegade-c", "3")]
      [("x-renegade-a", "1"), ("x-renegade-c", "3")]
      [("x-renegade-c", "3"), ("x-renegade-a", "1")] [] []
      ("x-renegade-a", "1") ("x-renegade-a", "2") (utf8 "x-renegade-a") [] 49 50
      none "body" "b1" "b2").2.2.2.2 (by decide)⟩

end RenegadeClient
